import Mathlib

/-!
Verification of the synchronization and data-reconciliation engine of the
flickr-browser repository (`src/oauth_downloader.py` and
`src/incremental_updater_true.py`), as a shallow embedding in Lean 4.

Strings travelling through the OAuth signer are modelled as their UTF-8
byte sequences (`List Nat`, each entry < 256), matching the fact that the
Python code signs the `encode()`-ed bytes.  Python machine integers in the
SHA-1 core are modelled as `Nat` reduced modulo 2^32.
-/

/-! ## Byte-string utilities for the request signer (`oauth_downloader.generate_signature`) -/

/-- A byte string: the UTF-8 encoding of a Python `str` (or a `bytes` value). -/
abbrev Bytes := List Nat

/-- The unreserved characters that `urllib.parse.quote` with `safe=''` leaves
unencoded: ASCII letters, digits, and `_ . - ~`. -/
def isUnreservedByte (b : Nat) : Bool :=
  (65 ≤ b && b ≤ 90) || (97 ≤ b && b ≤ 122) || (48 ≤ b && b ≤ 57) ||
  (b = 45) || (b = 46) || (b = 95) || (b = 126)

/-- Uppercase hexadecimal digit for a nibble, as `urllib.parse.quote` emits. -/
def hexDigitByte (n : Nat) : Nat :=
  if n < 10 then 48 + n else 55 + n

/-- `urllib.parse.quote(s, safe='')`: percent-encode every byte that is not
unreserved, using uppercase hex digits (37 is the code of the percent sign). -/
def pyQuote (s : Bytes) : Bytes :=
  (s.map (fun b =>
    if isUnreservedByte b then [b]
    else [37, hexDigitByte (b / 16), hexDigitByte (b % 16)])).flatten

/-- Python `str.upper()` restricted to ASCII, as applied to the HTTP method. -/
def pyUpper (s : Bytes) : Bytes :=
  s.map (fun b => if 97 ≤ b && b ≤ 122 then b - 32 else b)

/-- Strict lexicographic order on byte strings, matching Python string
comparison (UTF-8 byte order agrees with code-point order). -/
def bytesLt : Bytes → Bytes → Bool
  | [], [] => false
  | [], _ :: _ => true
  | _ :: _, [] => false
  | a :: as, b :: bs => if a < b then true else if b < a then false else bytesLt as bs

/-- Ordering used by Python `sorted(params.items())`: lexicographic on the
(key, value) pair — key first, value as tie-break. -/
def pairLeB (p q : Bytes × Bytes) : Bool :=
  bytesLt p.1 q.1 || (p.1 == q.1 && (bytesLt p.2 q.2 || p.2 == q.2))

/-- Ordering described by the specification: sort lexicographically by key. -/
def keyLeB (p q : Bytes × Bytes) : Bool :=
  bytesLt p.1 q.1 || p.1 == q.1

/-- Stable insertion of an element into a sorted list (keeps the inserted
element before later elements it ties with, like Python's stable sort). -/
def insSorted (le : α → α → Bool) (x : α) : List α → List α
  | [] => [x]
  | y :: ys => if le x y then x :: y :: ys else y :: insSorted le x ys

/-- Stable sort (insertion sort).  Python `sorted` is stable, and a stable
sort is uniquely determined by the comparison, so this models `sorted`. -/
def sortLe (le : α → α → Bool) : List α → List α
  | [] => []
  | x :: xs => insSorted le x (sortLe le xs)

/-- Join a list of byte strings with `&` (byte 38), like `'&'.join(...)`. -/
def joinAmp : List Bytes → Bytes
  | [] => []
  | [x] => x
  | x :: y :: ys => x ++ 38 :: joinAmp (y :: ys)

/-! ## SHA-1, HMAC-SHA1 and base64 (Python `hashlib.sha1`, `hmac`, `base64`) -/

/-- Reduce modulo 2^32 (Python ints in the SHA-1 rounds are taken mod 2^32). -/
def w32 (n : Nat) : Nat := n % 4294967296

/-- 32-bit left rotation. -/
def rotl32 (b n : Nat) : Nat := w32 ((n <<< b) + (n >>> (32 - b)))

/-- 32-bit complement. -/
def not32 (n : Nat) : Nat := 4294967295 - w32 n

/-- Big-endian byte representation of `n` in `len` bytes. -/
def natToBE (len n : Nat) : Bytes :=
  (List.range len).map (fun i => (n >>> (8 * (len - 1 - i))) % 256)

/-- Group a byte string into big-endian 32-bit words (4 bytes each). -/
def bytesToWords : Bytes → List Nat
  | a :: b :: c :: d :: rest => (((a * 256 + b) * 256 + c) * 256 + d) :: bytesToWords rest
  | _ => []

/-- SHA-1 padding: append bit 1 (byte 128), zero bytes to 56 mod 64, and the
original bit length as 8 big-endian bytes. -/
def sha1Pad (msg : Bytes) : Bytes :=
  msg ++ 128 :: List.replicate ((119 - msg.length % 64) % 64) 0 ++ natToBE 8 (8 * msg.length)

/-- Extend the 16 schedule words to 80.  The accumulator holds the words
generated so far in reverse order (most recent first). -/
def sha1Extend (acc : List Nat) : Nat → List Nat
  | 0 => acc
  | n + 1 =>
      sha1Extend (rotl32 1 ((acc.getD 2 0) ^^^ (acc.getD 7 0) ^^^ (acc.getD 13 0) ^^^ (acc.getD 15 0)) :: acc) n

/-- The 80-word message schedule of one chunk. -/
def sha1Schedule (chunk : Bytes) : List Nat :=
  (sha1Extend (bytesToWords chunk).reverse 64).reverse

/-- The SHA-1 round function and constant for round `i`. -/
def sha1FK (i b c d : Nat) : Nat × Nat :=
  if i < 20 then ((b &&& c) ||| (not32 b &&& d), 1518500249)
  else if i < 40 then (b ^^^ c ^^^ d, 1859775393)
  else if i < 60 then ((b &&& c) ||| (b &&& d) ||| (c &&& d), 2400959708)
  else (b ^^^ c ^^^ d, 3395469782)

/-- One SHA-1 round: rotate the five-word state through the compression step. -/
def sha1Round (st : Nat × Nat × Nat × Nat × Nat) (iw : Nat × Nat) :
    Nat × Nat × Nat × Nat × Nat :=
  match st, iw with
  | (a, b, c, d, e), (i, w) =>
    let fk := sha1FK i b c d
    (w32 (rotl32 5 a + fk.1 + e + fk.2 + w), a, rotl32 30 b, c, d)

/-- Process one 64-byte chunk, updating the five hash words. -/
def sha1Chunk (h : Nat × Nat × Nat × Nat × Nat) (chunk : Bytes) :
    Nat × Nat × Nat × Nat × Nat :=
  match h with
  | (h0, h1, h2, h3, h4) =>
    let final := (sha1Schedule chunk).enum.foldl sha1Round (h0, h1, h2, h3, h4)
    match final with
    | (a, b, c, d, e) => (w32 (h0 + a), w32 (h1 + b), w32 (h2 + c), w32 (h3 + d), w32 (h4 + e))

/-- Split a byte string into chunks of 64 bytes (fuel-driven; the fuel chosen
in `sha1` always suffices because each step consumes 64 bytes). -/
def chunks64Go : Nat → Bytes → List Bytes
  | 0, _ => []
  | _, [] => []
  | n + 1, l => l.take 64 :: chunks64Go n (l.drop 64)

/-- SHA-1 of a byte string, as `hashlib.sha1(...).digest()` (20 bytes). -/
def sha1 (msg : Bytes) : Bytes :=
  let padded := sha1Pad msg
  let final := (chunks64Go (padded.length / 64 + 1) padded).foldl sha1Chunk
    (1732584193, 4023233417, 2562383102, 271733878, 3285377520)
  match final with
  | (h0, h1, h2, h3, h4) =>
    natToBE 4 h0 ++ natToBE 4 h1 ++ natToBE 4 h2 ++ natToBE 4 h3 ++ natToBE 4 h4

/-- HMAC-SHA1 (`hmac.new(key, msg, hashlib.sha1).digest()`): keys longer than
the 64-byte block are hashed first, then padded with zeros; 92 and 54 are the
opad and ipad bytes. -/
def hmacSha1 (key msg : Bytes) : Bytes :=
  let k0 := if 64 < key.length then sha1 key else key
  let k1 := k0 ++ List.replicate (64 - k0.length) 0
  sha1 ((k1.map (fun b => b ^^^ 92)) ++ sha1 ((k1.map (fun b => b ^^^ 54)) ++ msg))

/-- One base64 output character (standard alphabet). -/
def b64Char (n : Nat) : Nat :=
  if n < 26 then 65 + n
  else if n < 52 then 97 + (n - 26)
  else if n < 62 then 48 + (n - 52)
  else if n = 62 then 43 else 47

/-- Standard base64 encoding with `=` padding (byte 61), as
`base64.b64encode`. -/
def b64Encode : Bytes → Bytes
  | [] => []
  | [a] => [b64Char (a / 4), b64Char (a % 4 * 16), 61, 61]
  | [a, b] => [b64Char (a / 4), b64Char (a % 4 * 16 + b / 16), b64Char (b % 16 * 4), 61]
  | a :: b :: c :: rest =>
      b64Char (a / 4) :: b64Char (a % 4 * 16 + b / 16) ::
      b64Char (b % 16 * 4 + c / 64) :: b64Char (c % 64) :: b64Encode rest

/-! ## The signer (`FlickrDownloaderOAuth.generate_signature`) -/

/-- Shallow embedding of `generate_signature`: build the normalized parameter
string from `sorted(params.items())`, the signature base string
`METHOD&quote(url)&quote(normalized)`, the signing key
`quote(api_secret)&quote(token_secret or '')`, and base64 the HMAC-SHA1.
`tokenSecret = none` models `self.oauth_token_secret` being `None`. -/
def generate_signature (method url : Bytes) (params : List (Bytes × Bytes))
    (apiSecret : Bytes) (tokenSecret : Option Bytes) : Bytes :=
  let normalized := joinAmp ((sortLe pairLeB params).map (fun kv => kv.1 ++ 61 :: kv.2))
  let signatureBase := pyUpper method ++ 38 :: (pyQuote url ++ 38 :: pyQuote normalized)
  let signingKey := pyQuote apiSecret ++ 38 :: pyQuote (tokenSecret.getD [])
  b64Encode (hmacSha1 signingKey signatureBase)

/-- Modelled from the spec wording of section 4.1: sort parameters
lexicographically **by key**, build `METHOD&url-encoded(url)&url-encoded(normalized-params)`,
HMAC-SHA1 it with key `urlencode(app_secret)&urlencode(token_secret_or_empty)`,
and base64-encode the digest. -/
def flickrSpecSignature (method url : Bytes) (params : List (Bytes × Bytes))
    (apiSecret : Bytes) (tokenSecret : Option Bytes) : Bytes :=
  let normalized := joinAmp ((sortLe keyLeB params).map (fun kv => kv.1 ++ 61 :: kv.2))
  let signatureBase := pyUpper method ++ 38 :: (pyQuote url ++ 38 :: pyQuote normalized)
  let signingKey := pyQuote apiSecret ++ 38 :: pyQuote (tokenSecret.getD [])
  b64Encode (hmacSha1 signingKey signatureBase)

/-! ### Sorting agreement: the pair order and the key order coincide when keys are distinct -/

theorem mem_insSorted (le : α → α → Bool) (x : α) (l : List α) (y : α) :
    y ∈ insSorted le x l ↔ y ∈ x :: l := by
  induction l with
  | nil => simp [insSorted]
  | cons z zs ih =>
      simp only [insSorted]
      by_cases h : le x z = true
      · simp [h]
      · simp only [if_neg h, List.mem_cons, ih]
        tauto

theorem insSorted_congr (le₁ le₂ : α → α → Bool) (x : α) (l : List α)
    (h : ∀ y ∈ l, le₁ x y = le₂ x y) : insSorted le₁ x l = insSorted le₂ x l := by
  induction l with
  | nil => rfl
  | cons z zs ih =>
      have hz : le₁ x z = le₂ x z := h z (by simp)
      simp only [insSorted, hz]
      by_cases h2 : le₂ x z = true
      · simp [h2]
      · simp only [if_neg h2]
        rw [ih (fun y hy => h y (by simp [hy]))]

theorem mem_sortLe (le : α → α → Bool) (l : List α) (y : α) :
    y ∈ sortLe le l ↔ y ∈ l := by
  induction l with
  | nil => simp [sortLe]
  | cons z zs ih =>
      simp only [sortLe]
      rw [mem_insSorted, List.mem_cons, List.mem_cons, ih]

theorem sortLe_congr (le₁ le₂ : α → α → Bool) (l : List α)
    (h : ∀ x ∈ l, ∀ y ∈ l, le₁ x y = le₂ x y) : sortLe le₁ l = sortLe le₂ l := by
  induction l with
  | nil => rfl
  | cons x xs ih =>
      simp only [sortLe]
      rw [ih (fun a ha b hb => h a (by simp [ha]) b (by simp [hb]))]
      refine insSorted_congr _ _ _ _ (fun y hy => ?_)
      have hmem : y ∈ xs := (mem_sortLe le₂ xs y).mp hy
      exact h x (by simp) y (by simp [hmem])

theorem pairLe_eq_keyLe_of_distinct (params : List (Bytes × Bytes))
    (hnd : (params.map Prod.fst).Nodup) :
    ∀ x ∈ params, ∀ y ∈ params, pairLeB x y = keyLeB x y := by
  intro x hx y hy
  by_cases hk : x.1 = y.1
  · have hxy : x = y := List.inj_on_of_nodup_map hnd hx hy hk
    subst hxy
    simp [pairLeB, keyLeB]
  · have hbeq : (x.1 == y.1) = false := by
      simp [hk]
    simp [pairLeB, keyLeB, hbeq]

/-- C9: for every method, URL, parameter set (distinct keys, as Python dict
items always have), app secret and optional token secret, the signer produces
exactly the signature described by the specified algorithm, and signing the
same inputs twice yields the same signature. -/
theorem generate_signature_matches_spec_and_deterministic
    (method url : Bytes) (params : List (Bytes × Bytes))
    (apiSecret : Bytes) (tokenSecret : Option Bytes)
    (hnd : (params.map Prod.fst).Nodup) :
    generate_signature method url params apiSecret tokenSecret =
      flickrSpecSignature method url params apiSecret tokenSecret ∧
    generate_signature method url params apiSecret tokenSecret =
      generate_signature method url params apiSecret tokenSecret := by
  constructor
  · unfold generate_signature flickrSpecSignature
    rw [sortLe_congr pairLeB keyLeB params (pairLe_eq_keyLe_of_distinct params hnd)]
  · rfl

/-- Witness for C9 at a concrete input: the two-parameter set
`a=1, b=2` (bytes 97/49/98/50) with method GET (71 69 84). -/
theorem generate_signature_matches_spec_witness :
    (([([97], [49]), ([98], [50])].map (Prod.fst (α := Bytes) (β := Bytes))).Nodup) ∧
    (generate_signature [71, 69, 84] [104] [([97], [49]), ([98], [50])] [115] none =
      flickrSpecSignature [71, 69, 84] [104] [([97], [49]), ([98], [50])] [115] none) := by
  refine ⟨by decide, ?_⟩
  exact (generate_signature_matches_spec_and_deterministic
    [71, 69, 84] [104] [([97], [49]), ([98], [50])] [115] none (by decide)).1

/-! ## Data model of the updater (`incremental_updater_true.py`)

Python dict payloads from the Flickr API are modelled by `PhotoData`
(fields `Option`-valued: `none` models an absent key).  Nested variant
shapes for tags/title/description (plain string, dict with `_content`,
list of strings) are modelled by `PyVal`. -/

/-- A value that may arrive as a plain string, a dict carrying `_content`,
or a list of strings. -/
inductive PyVal where
  | str : String → PyVal
  | withContent : String → PyVal
  | strs : List String → PyVal
deriving DecidableEq, Repr

/-- Python `str()` rendering of a `PyVal` (used by the `else` branches of the
normalization code; the dict/list renderings approximate CPython's `repr`). -/
def pyStr : PyVal → String
  | PyVal.str s => s
  | PyVal.withContent c => "\x7b\x27_content\x27: \x27" ++ c ++ "\x27\x7d"
  | PyVal.strs l => "[" ++ String.intercalate ", " (l.map (fun s => "\x27" ++ s ++ "\x27")) ++ "]"

/-- Normalization used for `title` and `description`: dict yields its
`_content`, anything else its string form, absence yields the empty string. -/
def normContent : Option PyVal → String
  | none => ""
  | some (PyVal.withContent c) => c
  | some x => pyStr x

/-- Normalization used for `tags`: dict yields `_content`, a list is joined
with a comma and space, anything else its string form. -/
def normTags : Option PyVal → String
  | none => ""
  | some (PyVal.withContent c) => c
  | some (PyVal.strs l) => String.intercalate ", " l
  | some (PyVal.str s) => s

/-- A photo payload as returned by the remote API (album listing, photostream
listing, or `flickr.photos.getInfo`). -/
structure PhotoData where
  id : String
  title : Option PyVal
  description : Option PyVal
  tags : Option PyVal
  datetaken : Option String
  dateupload : Option String
  views : Option Nat
  url_t : Option String
  url_o : Option String
deriving DecidableEq, Repr

/-- `photo.update(photo_info)`: every key present in the detail payload
overrides the listing value; absent keys keep the listing value.  The id is
always present in a `getInfo` payload, so it always overrides. -/
def mergeInfo (pd : PhotoData) : Option PhotoData → PhotoData
  | none => pd
  | some i =>
      { id := i.id
      , title := (i.title).orElse (fun _ => pd.title)
      , description := (i.description).orElse (fun _ => pd.description)
      , tags := (i.tags).orElse (fun _ => pd.tags)
      , datetaken := (i.datetaken).orElse (fun _ => pd.datetaken)
      , dateupload := (i.dateupload).orElse (fun _ => pd.dateupload)
      , views := (i.views).orElse (fun _ => pd.views)
      , url_t := (i.url_t).orElse (fun _ => pd.url_t)
      , url_o := (i.url_o).orElse (fun _ => pd.url_o) }

/-- A row of the `photos` table as written by
`save_photo_metadata_standalone` (which omits the legacy `album_id` column). -/
structure Photo where
  id : String
  title : String
  description : String
  filename : String
  thumbnail_path : String
  date_taken : String
  date_uploaded : String
  views : Nat
  tags : String
  url_original : String
  url_thumbnail : String
deriving DecidableEq, Repr

/-- A row of the `photo_albums` junction table. -/
structure LinkRow where
  photo_id : String
  album_id : String
  is_primary : Nat
  date_added : String
deriving DecidableEq, Repr

/-- A row of the `comments` table. -/
structure CommentRow where
  id : String
  photo_id : String
  author : String
  comment : String
  date_created : String
deriving DecidableEq, Repr

/-- A row of the `albums` table. -/
structure AlbumRow where
  id : String
  title : String
  description : String
  photo_count : Nat
  created_date : String
  updated_date : String
deriving DecidableEq, Repr

/-- A comment payload as returned by `flickr.photos.comments.getList`. -/
structure CommentData where
  id : String
  authorname : String
  content : String
  datecreate : String
deriving DecidableEq, Repr

/-- The SQLite database contents (row order is irrelevant to every query the
engine performs; rows are kept as lists). -/
structure DB where
  albums : List AlbumRow
  photos : List Photo
  comments : List CommentRow
  links : List LinkRow
deriving DecidableEq, Repr

/-- The set of photo ids present in the `photos` table. -/
def photoIds (db : DB) : List String := db.photos.map Photo.id

/-- The set of (photo_id, album_id) pairs present in the junction table. -/
def linkPairs (db : DB) : List (String × String) :=
  db.links.map (fun l => (l.photo_id, l.album_id))

/-- The photo row built by `save_photo_metadata_standalone` from a payload
and an optional local thumbnail path (`None` and the empty string both
store as the empty string, per `str(x) if x else ''`). -/
def rowOf (pd : PhotoData) (tp : Option String) : Photo :=
  { id := pd.id
  , title := normContent pd.title
  , description := normContent pd.description
  , filename := pd.id ++ ".jpg"
  , thumbnail_path := tp.getD ""
  , date_taken := (pd.datetaken).getD ""
  , date_uploaded := (pd.dateupload).getD ""
  , views := (pd.views).getD 0
  , tags := normTags pd.tags
  , url_original := (pd.url_o).getD ""
  , url_thumbnail := (pd.url_t).getD "" }

/-- `INSERT OR REPLACE INTO photos`: the conflicting row (same primary key)
is deleted and the new row inserted. -/
def insertOrReplacePhoto (rows : List Photo) (p : Photo) : List Photo :=
  p :: rows.filter (fun q => decide (¬ q.id = p.id))

/-- `INSERT OR IGNORE INTO photo_albums`: a row with the same composite
primary key makes the insert a no-op. -/
def insertOrIgnoreLink (rows : List LinkRow) (pid aid now : String) : List LinkRow :=
  if (pid, aid) ∈ rows.map (fun l => (l.photo_id, l.album_id)) then rows
  else { photo_id := pid, album_id := aid, is_primary := 1, date_added := now } :: rows

/-- `INSERT OR REPLACE INTO comments` for a single comment row. -/
def insertOrReplaceComment (rows : List CommentRow) (c : CommentRow) : List CommentRow :=
  c :: rows.filter (fun q => decide (¬ q.id = c.id))

/-- The comment row stored by `save_comments` for one comment payload. -/
def commentRowOf (pid : String) (c : CommentData) : CommentRow :=
  { id := c.id, photo_id := pid, author := c.authorname
  , comment := c.content, date_created := c.datecreate }

/-- `INSERT OR REPLACE INTO albums` (timestamps both set to now). -/
def insertOrReplaceAlbum (rows : List AlbumRow) (a : AlbumRow) : List AlbumRow :=
  a :: rows.filter (fun q => decide (¬ q.id = a.id))

/-! ## Remote API model and paginated fetchers -/

/-- One page of a paginated API response: the reported status, the error
message of a failed response, the items of the page, and the server-reported
total page count. -/
structure Page (α : Type) where
  ok : Bool
  message : String
  items : List α
  pages : Nat
deriving DecidableEq, Repr

/-- The response served for the 1-based page number `n`.  Out-of-range pages
(never requested by a run against a consistent remote) read as an empty
successful page reporting zero total pages. -/
def pageAt (ps : List (Page α)) (n : Nat) : Page α :=
  ps.getD (n - 1) { ok := true, message := "", items := [], pages := 0 }

/-- An album entry of `flickr.photosets.getList`. -/
structure AlbumInfo where
  id : String
  title : PyVal
deriving DecidableEq, Repr

/-- The remote Flickr side, as the deterministic responses the engine can
observe: the paginated listings, the per-photo detail call (`.error` models a
raised transport exception, `.ok none` a non-ok status), the comment list
(`get_photo_comments` catches all errors and returns `[]`), and the
thumbnail download result (`download_thumbnail` catches all errors and
returns the relative path or `None`). -/
structure Remote where
  photostreamPages : List (Page PhotoData)
  albumsPages : List (Page AlbumInfo)
  albumPhotosPages : String → List (Page PhotoData)
  info : String → Except String (Option PhotoData)
  commentsOf : String → List CommentData
  thumb : String → String → Option String

/-- Page loop of `get_user_albums`: check the status (raising an exception —
modelled as `.error` — on a non-ok page), extend the accumulator, stop when
the requested page reaches the reported page count.  The fuel passed by the
wrapper always exceeds the number of iterations possible. -/
def getUserAlbumsGo (ps : List (Page AlbumInfo)) :
    Nat → Nat → List AlbumInfo → Except String (List AlbumInfo)
  | 0, _, acc => Except.ok acc
  | fuel + 1, page, acc =>
      let r := pageAt ps page
      if r.ok = false then Except.error ("API Error: " ++ r.message)
      else if r.pages ≤ page then Except.ok (acc ++ r.items)
      else getUserAlbumsGo ps fuel (page + 1) (acc ++ r.items)

/-- `get_user_albums`: fetch all pages of `flickr.photosets.getList`. -/
def get_user_albums (r : Remote) : Except String (List AlbumInfo) :=
  getUserAlbumsGo r.albumsPages (r.albumsPages.length + 2) 1 []

/-- Page loop of `get_album_photos`: a non-ok page **breaks** the loop,
returning the items gathered so far with no error signal. -/
def getAlbumPhotosGo (ps : List (Page PhotoData)) :
    Nat → Nat → List PhotoData → List PhotoData
  | 0, _, acc => acc
  | fuel + 1, page, acc =>
      let r := pageAt ps page
      if r.ok = false then acc
      else if r.pages ≤ page then acc ++ r.items
      else getAlbumPhotosGo ps fuel (page + 1) (acc ++ r.items)

/-- `get_album_photos`: fetch all pages of `flickr.photosets.getPhotos`. -/
def get_album_photos (r : Remote) (albumId : String) : List PhotoData :=
  getAlbumPhotosGo (r.albumPhotosPages albumId) ((r.albumPhotosPages albumId).length + 2) 1 []

/-- Page loop of `get_recent_photostream_photos`: a non-ok page (or a raised
exception, handled identically) prints an error and breaks, an empty page
breaks, otherwise the items are accumulated, a progress line is printed, and
the loop stops once the reported page count is reached. -/
def getPhotostreamGo (ps : List (Page PhotoData)) :
    Nat → Nat → List PhotoData → List String → List PhotoData × List String
  | 0, _, acc, log => (acc, log)
  | fuel + 1, page, acc, log =>
      let r := pageAt ps page
      if r.ok = false then (acc, log ++ ["Error getting photostream: " ++ r.message])
      else if r.items.isEmpty then (acc, log)
      else
        let acc2 := acc ++ r.items
        let log2 := log ++ ["Page " ++ toString page ++ ": Got " ++ toString r.items.length ++ " photos"]
        if r.pages ≤ page then (acc2, log2)
        else getPhotostreamGo ps fuel (page + 1) acc2 log2

/-- `get_recent_photostream_photos(days_back)`: page through the entire
photostream, then filter out the photos whose id is already in the in-memory
index.  Returns the new photos together with the printed log; `daysBack`
appears only in the opening log line. -/
def get_recent_photostream_photos (r : Remote) (idx : List String) (daysBack : Nat) :
    List PhotoData × List String :=
  let l0 := ["Checking photostream for photos uploaded in last " ++ toString daysBack ++ " days..."]
  let t := getPhotostreamGo r.photostreamPages (r.photostreamPages.length + 2) 1 [] l0
  let newPhotos := t.1.filter (fun p => decide (¬ p.id ∈ idx))
  (newPhotos,
   t.2 ++ ["Total photostream photos: " ++ toString t.1.length,
           "New photostream photos: " ++ toString newPhotos.length])

/-! ## Updater state and reconciliation operations

Each state-changing operation returns its final state together with the list
of intermediate states after every atomic mutation (one database commit, one
in-memory index insertion, or one counter increment), in execution order.
These snapshot lists let the intermediate-state invariants of the spec be
stated exactly. -/

/-- The in-memory state of `ComprehensiveFlickrUpdater` plus the database. -/
structure UpdState where
  db : DB
  existing_photo_ids : List String
  new_photos_count : Nat
  new_associations_count : Nat
  skipped_photos_count : Nat
  photostream_new_count : Nat
deriving DecidableEq, Repr

/-- `photo_exists`: membership of the id in the in-memory index. -/
def photo_exists (s : UpdState) (pid : String) : Bool :=
  decide (pid ∈ s.existing_photo_ids)

/-- `photo_in_album`: point query against the junction table. -/
def photo_in_album (s : UpdState) (pid aid : String) : Bool :=
  decide ((pid, aid) ∈ linkPairs s.db)

/-- Commit of the `INSERT OR REPLACE INTO photos` transaction. -/
def commitStandalone (pd : PhotoData) (tp : Option String) (s : UpdState) : UpdState :=
  { s with db := { s.db with photos := insertOrReplacePhoto s.db.photos (rowOf pd tp) } }

/-- Commit of the `INSERT OR IGNORE INTO photo_albums` transaction. -/
def commitJunctionLink (pid aid now : String) (s : UpdState) : UpdState :=
  { s with db := { s.db with links := insertOrIgnoreLink s.db.links pid aid now } }

/-- Commit of the `save_album_metadata` upsert. -/
def commitAlbumMeta (aid title desc : String) (count : Nat) (now : String) (s : UpdState) : UpdState :=
  { s with db := { s.db with albums := insertOrReplaceAlbum s.db.albums { id := aid, title := title, description := desc, photo_count := count, created_date := now, updated_date := now } } }

/-- `self.existing_photo_ids.add(photo_id)` (set insertion, in-memory). -/
def indexAddS (pid : String) (s : UpdState) : UpdState :=
  { s with existing_photo_ids :=
      if pid ∈ s.existing_photo_ids then s.existing_photo_ids else pid :: s.existing_photo_ids }

/-- Counter increments. -/
def bumpNewPhotos (s : UpdState) : UpdState :=
  { s with new_photos_count := s.new_photos_count + 1 }

def bumpNewAssoc (s : UpdState) : UpdState :=
  { s with new_associations_count := s.new_associations_count + 1 }

def bumpSkipped (s : UpdState) : UpdState :=
  { s with skipped_photos_count := s.skipped_photos_count + 1 }

def bumpPsNew (s : UpdState) : UpdState :=
  { s with photostream_new_count := s.photostream_new_count + 1 }

/-- `save_photo_metadata_standalone`: one transaction replacing the photo row. -/
def save_photo_metadata_standalone (pd : PhotoData) (tp : Option String) (s : UpdState) :
    UpdState × List UpdState :=
  let s1 := commitStandalone pd tp s
  (s1, [s1])

/-- `save_photo_metadata_junction`: saves the photo row first (committing it),
then commits the junction row for `str(photo_data['id'])`. -/
def save_photo_metadata_junction (pd : PhotoData) (aid : String) (tp : Option String)
    (now : String) (s : UpdState) : UpdState × List UpdState :=
  let t := save_photo_metadata_standalone pd tp s
  let s2 := commitJunctionLink pd.id aid now t.1
  (s2, t.2 ++ [s2])

/-- `save_comments`: no transaction at all when the list is empty, otherwise
one transaction inserting/replacing every comment row. -/
def save_comments_op (pid : String) (cs : List CommentData) (s : UpdState) :
    UpdState × List UpdState :=
  if cs.isEmpty then (s, [])
  else
    let s1 := { s with db := { s.db with comments := cs.foldl (fun acc c => insertOrReplaceComment acc (commentRowOf pid c)) s.db.comments } }
    (s1, [s1])

/-- `thumbnail_url = photo.get('url_t'); if thumbnail_url: download` —
the empty string is falsy, so it skips the download like `None` does. -/
def thumbFetch (r : Remote) (pid : String) (u : Option String) : Option String :=
  match u with
  | none => none
  | some url => if url = "" then none else r.thumb pid url

/-- `download_photostream_photo`: skip if the photo exists; otherwise fetch
detail (a raised transport error — `.error` — aborts the item before any
mutation), merge it, download the thumbnail, fetch and save comments, save
the photo row, add the id to the index, and bump both photostream counters.
Returns the state reached, the snapshots of every atomic mutation, and the
outcome (`.ok` of the boolean return, or the propagated exception). -/
def download_photostream_photo (r : Remote) (pd : PhotoData) (s : UpdState) :
    UpdState × List UpdState × Except String Bool :=
  if photo_exists s pd.id then (s, [], Except.ok false)
  else
    match r.info pd.id with
    | Except.error e => (s, [], Except.error e)
    | Except.ok oi =>
        let pd1 := mergeInfo pd oi
        let tp := thumbFetch r pd.id pd1.url_t
        let cs := r.commentsOf pd.id
        let t1 := save_comments_op pd.id cs s
        let t2 := save_photo_metadata_standalone pd1 tp t1.1
        let s3 := indexAddS pd.id t2.1
        let s4 := bumpPsNew s3
        let s5 := bumpNewPhotos s4
        (s5, t1.2 ++ t2.2 ++ [s3, s4, s5], Except.ok true)

/-- `download_album_photo`: the three-way classification. An existing,
already-linked photo only bumps the skipped counter.  A photo that does not
exist is fully fetched (detail — the raise point —, thumbnail, comments),
its id is added to the index and `new_photos` bumped, and it is then saved
with the album association.  An existing unlinked photo is saved with the
album association with `thumbnail_path = None` and no remote call.  In both
latter cases `new_associations` is bumped because `in_album` is false. -/
def download_album_photo (r : Remote) (now : String) (pd : PhotoData) (aid : String)
    (s : UpdState) : UpdState × List UpdState × Except String Bool :=
  let pe := photo_exists s pd.id
  let ia := if pe then photo_in_album s pd.id aid else false
  if pe && ia then
    let s1 := bumpSkipped s
    (s1, [s1], Except.ok false)
  else
    if pe = false then
      match r.info pd.id with
      | Except.error e => (s, [], Except.error e)
      | Except.ok oi =>
          let pd1 := mergeInfo pd oi
          let tp := thumbFetch r pd.id pd1.url_t
          let cs := r.commentsOf pd.id
          let t1 := save_comments_op pd.id cs s
          let s2 := indexAddS pd.id t1.1
          let s3 := bumpNewPhotos s2
          let t4 := save_photo_metadata_junction pd1 aid tp now s3
          let s5 := if ia then t4.1 else bumpNewAssoc t4.1
          (s5, t1.2 ++ [s2, s3] ++ t4.2 ++ (if ia then [] else [s5]), Except.ok true)
    else
      let t4 := save_photo_metadata_junction pd aid none now s
      let s5 := if ia then t4.1 else bumpNewAssoc t4.1
      (s5, t4.2 ++ (if ia then [] else [s5]), Except.ok true)

/-- The item loop of `update_photostream`: each item runs inside
`try/except`, so an exception is logged and the loop continues with the next
item from the state reached. -/
def processStreamItems (r : Remote) : List PhotoData → UpdState → UpdState × List UpdState
  | [], s => (s, [])
  | pd :: rest, s =>
      let t := download_photostream_photo r pd s
      let u := processStreamItems r rest t.1
      (u.1, t.2.1 ++ u.2)

/-- `update_photostream`: fetch the filtered photostream listing (days_back
left at its default 90), then process every new photo. -/
def update_photostream (r : Remote) (s : UpdState) : UpdState × List UpdState :=
  processStreamItems r (get_recent_photostream_photos r s.existing_photo_ids 90).1 s

/-- The item loop of `update_album_incremental`: there is **no** per-item
exception handler here, so a raised item exception aborts the loop and
propagates (returned as `some e`), leaving the remaining items unprocessed. -/
def processAlbumItems (r : Remote) (now aid : String) :
    List PhotoData → UpdState → UpdState × List UpdState × Option String
  | [], s => (s, [], none)
  | pd :: rest, s =>
      let t := download_album_photo r now pd aid s
      match t.2.2 with
      | Except.error e => (t.1, t.2.1, some e)
      | Except.ok _ =>
          let u := processAlbumItems r now aid rest t.1
          (u.1, t.2.1 ++ u.2.1, u.2.2)

/-- `update_album_incremental`: list the album photos, upsert the album
metadata row, then process every photo in order. -/
def update_album_incremental (r : Remote) (now aid title : String) (s : UpdState) :
    UpdState × List UpdState × Option String :=
  let photos := get_album_photos r aid
  let s1 := commitAlbumMeta aid title "" photos.length now s
  let t := processAlbumItems r now aid photos s1
  (t.1, s1 :: t.2.1, t.2.2)

/-- Extraction of an album title
(`album['title']['_content'] if isinstance(..., dict) else str(...)`). -/
def albumTitleOf : PyVal → String
  | PyVal.withContent c => c
  | v => pyStr v

/-- The album loop of `update_albums`: each album sweep runs inside
`try/except`, so an error in one album is logged and the loop continues
with the next album. -/
def processAlbums (r : Remote) (now : String) :
    List AlbumInfo → UpdState → UpdState × List UpdState
  | [], s => (s, [])
  | a :: rest, s =>
      let t := update_album_incremental r now a.id (albumTitleOf a.title) s
      let u := processAlbums r now rest t.1
      (u.1, t.2.1 ++ u.2)

/-- `update_albums`: list the albums (an error — the raised exception of
`get_user_albums` — is caught, logged, and aborts the whole phase), then
sweep each album. -/
def update_albums (r : Remote) (now : String) (s : UpdState) : UpdState × List UpdState :=
  match get_user_albums r with
  | Except.error _ => (s, [])
  | Except.ok albums => processAlbums r now albums s

/-- `comprehensive_update`: the photostream sweep, then the album sweeps. -/
def comprehensive_update (r : Remote) (now : String) (s : UpdState) :
    UpdState × List UpdState :=
  let t := update_photostream r s
  let u := update_albums r now t.1
  (u.1, t.2 ++ u.2)

/-- The state `ComprehensiveFlickrUpdater.__init__` builds: zeroed counters
and the Existing-State Index loaded from the `photos` table. -/
def mkRunState (db : DB) : UpdState :=
  { db := db, existing_photo_ids := photoIds db
  , new_photos_count := 0, new_associations_count := 0
  , skipped_photos_count := 0, photostream_new_count := 0 }

/-- One full sync run started on a database: final in-memory state. -/
def runSync (r : Remote) (now : String) (db : DB) : UpdState :=
  (comprehensive_update r now (mkRunState db)).1

/-- One full sync run: the initial state followed by every intermediate
state, in execution order. -/
def runTrace (r : Remote) (now : String) (db : DB) : List UpdState :=
  mkRunState db :: (comprehensive_update r now (mkRunState db)).2

/-! ## C10: the `days_back` parameter does not influence the result -/

theorem getPhotostreamGo_fst_log_indep (ps : List (Page PhotoData)) :
    ∀ fuel page acc log₁ log₂,
      (getPhotostreamGo ps fuel page acc log₁).1 = (getPhotostreamGo ps fuel page acc log₂).1 := by
  intro fuel
  induction fuel with
  | zero => intro page acc log₁ log₂; rfl
  | succ n ih =>
      intro page acc log₁ log₂
      simp only [getPhotostreamGo]
      by_cases h1 : (pageAt ps page).ok = false
      · simp [h1]
      · simp only [if_neg h1]
        by_cases h2 : (pageAt ps page).items.isEmpty = true
        · simp [h2]
        · simp only [if_neg h2]
          by_cases h3 : (pageAt ps page).pages ≤ page
          · simp [h3]
          · simp only [if_neg h3]
            exact ih (page + 1) _ _ _

/-- C10: for every value of `days_back`, `get_recent_photostream_photos`
returns the same photo list on the same remote photostream and index: the
parameter influences only the printed log. -/
theorem get_recent_photostream_days_back_noninterference
    (r : Remote) (idx : List String) (d₁ d₂ : Nat) :
    (get_recent_photostream_photos r idx d₁).1 = (get_recent_photostream_photos r idx d₂).1 := by
  simp only [get_recent_photostream_photos]
  rw [getPhotostreamGo_fst_log_indep r.photostreamPages (r.photostreamPages.length + 2) 1 []
    (["Checking photostream for photos uploaded in last " ++ toString d₁ ++ " days..."]) []]
  rw [getPhotostreamGo_fst_log_indep r.photostreamPages (r.photostreamPages.length + 2) 1 []
    (["Checking photostream for photos uploaded in last " ++ toString d₂ ++ " days..."]) []]

/-! ## C7: behaviour of the paginated fetchers at a failing page -/

/-- The items of `n` consecutive pages starting at 1-based `page`. -/
def pagesItemsFrom (ps : List (Page α)) : Nat → Nat → List α
  | _, 0 => []
  | page, n + 1 => (pageAt ps page).items ++ pagesItemsFrom ps (page + 1) n

theorem getUserAlbumsGo_stops_at_bad_page (ps : List (Page AlbumInfo)) (k : Nat)
    (hk : (pageAt ps k).ok = false) :
    ∀ fuel page acc, page ≤ k → k - page < fuel →
      (∀ i, page ≤ i → i < k → (pageAt ps i).ok = true ∧ i < (pageAt ps i).pages) →
      getUserAlbumsGo ps fuel page acc = Except.error ("API Error: " ++ (pageAt ps k).message) := by
  intro fuel
  induction fuel with
  | zero => intro page acc h1 h2 _; omega
  | succ n ih =>
      intro page acc h1 h2 hgood
      simp only [getUserAlbumsGo]
      by_cases hpk : page = k
      · subst hpk; simp [hk]
      · have hlt : page < k := by omega
        have hp := hgood page (le_refl page) hlt
        simp only [hp.1, if_neg, reduceIte]
        have hnp : ¬ (pageAt ps page).pages ≤ page := by omega
        simp only [if_neg hnp]
        exact ih (page + 1) _ (by omega) (by omega) (fun i hi1 hi2 => hgood i (by omega) hi2)

theorem getAlbumPhotosGo_stops_at_bad_page (ps : List (Page PhotoData)) (k : Nat)
    (hk : (pageAt ps k).ok = false) :
    ∀ fuel page acc, page ≤ k → k - page < fuel →
      (∀ i, page ≤ i → i < k → (pageAt ps i).ok = true ∧ i < (pageAt ps i).pages) →
      getAlbumPhotosGo ps fuel page acc = acc ++ pagesItemsFrom ps page (k - page) := by
  intro fuel
  induction fuel with
  | zero => intro page acc h1 h2 _; omega
  | succ n ih =>
      intro page acc h1 h2 hgood
      simp only [getAlbumPhotosGo]
      by_cases hpk : page = k
      · subst hpk
        simp [hk, pagesItemsFrom]
      · have hlt : page < k := by omega
        have hp := hgood page (le_refl page) hlt
        simp only [hp.1, reduceIte]
        have hnp : ¬ (pageAt ps page).pages ≤ page := by omega
        simp only [if_neg hnp]
        rw [ih (page + 1) _ (by omega) (by omega) (fun i hi1 hi2 => hgood i (by omega) hi2)]
        have hcount : k - page = (k - (page + 1)) + 1 := by omega
        rw [hcount]
        simp [pagesItemsFrom, List.append_assoc]

theorem getPhotostreamGo_stops_at_bad_page (ps : List (Page PhotoData)) (k : Nat)
    (hk : (pageAt ps k).ok = false) :
    ∀ fuel page acc log, page ≤ k → k - page < fuel →
      (∀ i, page ≤ i → i < k →
        (pageAt ps i).ok = true ∧ (pageAt ps i).items.isEmpty = false ∧ i < (pageAt ps i).pages) →
      (getPhotostreamGo ps fuel page acc log).1 = acc ++ pagesItemsFrom ps page (k - page) ∧
      ∃ l, (getPhotostreamGo ps fuel page acc log).2 =
        l ++ ["Error getting photostream: " ++ (pageAt ps k).message] := by
  intro fuel
  induction fuel with
  | zero => intro page acc log h1 h2 _; omega
  | succ n ih =>
      intro page acc log h1 h2 hgood
      simp only [getPhotostreamGo]
      by_cases hpk : page = k
      · subst hpk
        refine ⟨by simp [hk, pagesItemsFrom], ⟨log, by simp [hk]⟩⟩
      · have hlt : page < k := by omega
        have hp := hgood page (le_refl page) hlt
        have hnp : ¬ (pageAt ps page).pages ≤ page := by omega
        simp only [if_neg (show ¬ (pageAt ps page).ok = false by simp [hp.1]),
          if_neg (show ¬ (pageAt ps page).items.isEmpty = true by simp [hp.2.1]),
          if_neg hnp]
        have hih := ih (page + 1) (acc ++ (pageAt ps page).items)
          (log ++ ["Page " ++ toString page ++ ": Got " ++ toString (pageAt ps page).items.length ++ " photos"])
          (by omega) (by omega) (fun i hi1 hi2 => hgood i (by omega) hi2)
        refine ⟨?_, hih.2⟩
        rw [hih.1]
        have hcount : k - page = (k - (page + 1)) + 1 := by omega
        rw [hcount]
        simp [pagesItemsFrom, List.append_assoc]

theorem bad_page_index_lt {α : Type} (ps : List (Page α)) (k : Nat)
    (hk : (pageAt ps k).ok = false) : k - 1 < ps.length := by
  by_contra h
  have hge : ps.length ≤ k - 1 := by omega
  have hnone : ps[k - 1]? = none := List.getElem?_eq_none hge
  simp [pageAt, List.getD, hnone] at hk

/-- Photo payload used by the C7 concrete remote. -/
def c7Photo : PhotoData :=
  { id := "p1", title := none, description := none, tags := none
  , datetaken := none, dateupload := none, views := none, url_t := none, url_o := none }

/-- Remote used by the C7 counterexample: two album-listing pages, the first
successful with one album and reporting two pages, the second failing; the
per-album photo listing is shaped the same way with one photo. -/
def c7Remote : Remote :=
  { photostreamPages := []
  , albumsPages :=
      [{ ok := true, message := "", items := [{ id := "A", title := PyVal.str "A" }], pages := 2 },
       { ok := false, message := "boom", items := [], pages := 2 }]
  , albumPhotosPages := fun _ =>
      [{ ok := true, message := "", items := [c7Photo], pages := 2 },
       { ok := false, message := "boom", items := [], pages := 2 }]
  , info := fun _ => Except.ok none
  , commentsOf := fun _ => []
  , thumb := fun _ _ => none }

/-- C7 counterexample: with a successful first page and a failing second page,
`get_user_albums` surfaces the error but **without** the page-1 results
(they are dropped), while `get_album_photos` returns the page-1 results but
**without** surfacing any error — so neither fetcher stops and surfaces the
error upward together with the partial results, contrary to the claim. -/
theorem paginated_fetch_error_with_partials_counterexample :
    (pageAt c7Remote.albumsPages 2).ok = false ∧
    (pageAt c7Remote.albumsPages 1).items ≠ [] ∧
    get_user_albums c7Remote = Except.error "API Error: boom" ∧
    (get_album_photos c7Remote "A").map PhotoData.id = ["p1"] := by
  refine ⟨by decide, by decide, by rfl, by decide⟩

/-- Remote used as witness input for the amended C7 theorem: like
`c7Remote`, with a photostream whose first page already fails. -/
def c7RemoteW : Remote :=
  { photostreamPages := [{ ok := false, message := "down", items := [], pages := 1 }]
  , albumsPages := c7Remote.albumsPages
  , albumPhotosPages := c7Remote.albumPhotosPages
  , info := fun _ => Except.ok none
  , commentsOf := fun _ => []
  , thumb := fun _ _ => none }

/-- C7 (amended): at the first failing page, `get_user_albums` stops and
surfaces the error upward but discards the items of the earlier pages;
`get_album_photos` stops and returns exactly the items of the earlier pages
with no error signal; the photostream fetch stops, returns the filtered
items of the earlier pages, and the error appears only in its printed log. -/
theorem paginated_fetchers_failing_page_behavior (r : Remote) (aid : String)
    (idx : List String) (d : Nat) (ka kb kc : Nat)
    (ha1 : 1 ≤ ka) (ha2 : (pageAt r.albumsPages ka).ok = false)
    (ha3 : ∀ i, 1 ≤ i → i < ka → (pageAt r.albumsPages i).ok = true ∧ i < (pageAt r.albumsPages i).pages)
    (hb1 : 1 ≤ kb) (hb2 : (pageAt (r.albumPhotosPages aid) kb).ok = false)
    (hb3 : ∀ i, 1 ≤ i → i < kb → (pageAt (r.albumPhotosPages aid) i).ok = true ∧ i < (pageAt (r.albumPhotosPages aid) i).pages)
    (hc1 : 1 ≤ kc) (hc2 : (pageAt r.photostreamPages kc).ok = false)
    (hc3 : ∀ i, 1 ≤ i → i < kc → (pageAt r.photostreamPages i).ok = true ∧
      (pageAt r.photostreamPages i).items.isEmpty = false ∧ i < (pageAt r.photostreamPages i).pages) :
    get_user_albums r = Except.error ("API Error: " ++ (pageAt r.albumsPages ka).message) ∧
    get_album_photos r aid = pagesItemsFrom (r.albumPhotosPages aid) 1 (kb - 1) ∧
    (get_recent_photostream_photos r idx d).1 =
      (pagesItemsFrom r.photostreamPages 1 (kc - 1)).filter (fun p => decide (¬ p.id ∈ idx)) ∧
    ("Error getting photostream: " ++ (pageAt r.photostreamPages kc).message) ∈
      (get_recent_photostream_photos r idx d).2 := by
  have hla := bad_page_index_lt r.albumsPages ka ha2
  have hlb := bad_page_index_lt (r.albumPhotosPages aid) kb hb2
  have hlc := bad_page_index_lt r.photostreamPages kc hc2
  have hgo := getPhotostreamGo_stops_at_bad_page r.photostreamPages kc hc2
    (r.photostreamPages.length + 2) 1 []
    (["Checking photostream for photos uploaded in last " ++ toString d ++ " days..."])
    hc1 (by omega) (fun i h1 h2 => hc3 i h1 h2)
  refine ⟨?_, ?_, ?_, ?_⟩
  · exact getUserAlbumsGo_stops_at_bad_page r.albumsPages ka ha2
      (r.albumsPages.length + 2) 1 [] ha1 (by omega) (fun i h1 h2 => ha3 i h1 h2)
  · have := getAlbumPhotosGo_stops_at_bad_page (r.albumPhotosPages aid) kb hb2
      ((r.albumPhotosPages aid).length + 2) 1 [] hb1 (by omega) (fun i h1 h2 => hb3 i h1 h2)
    simpa [get_album_photos] using this
  · simp only [get_recent_photostream_photos]
    rw [hgo.1]
    simp
  · obtain ⟨l, hl⟩ := hgo.2
    simp only [get_recent_photostream_photos]
    rw [hl]
    simp

/-- Witness for the amended C7 theorem at a concrete remote whose second
album-listing page, second album-photos page, and first photostream page all
fail. -/
theorem paginated_fetchers_failing_page_behavior_witness :
    get_user_albums c7RemoteW = Except.error ("API Error: " ++ (pageAt c7RemoteW.albumsPages 2).message) ∧
    get_album_photos c7RemoteW "A" = pagesItemsFrom (c7RemoteW.albumPhotosPages "A") 1 (2 - 1) ∧
    (get_recent_photostream_photos c7RemoteW [] 90).1 =
      (pagesItemsFrom c7RemoteW.photostreamPages 1 (1 - 1)).filter (fun p => decide (¬ p.id ∈ ([] : List String))) ∧
    ("Error getting photostream: " ++ (pageAt c7RemoteW.photostreamPages 1).message) ∈
      (get_recent_photostream_photos c7RemoteW [] 90).2 :=
  paginated_fetchers_failing_page_behavior c7RemoteW "A" [] 90 2 2 1
    (by decide) (by decide) (by decide)
    (by decide) (by decide) (by decide)
    (by decide) (by decide) (by decide)

/-! ## C1: the album-sweep link-only path -/

/-- A helper equation: `save_comments_op` only ever changes the `comments`
table (by structure eta this also covers the empty-comments early return). -/
theorem save_comments_op_state (pid : String) (cs : List CommentData) (s : UpdState) :
    (save_comments_op pid cs s).1 =
      { s with db := { s.db with comments := cs.foldl (fun acc c => insertOrReplaceComment acc (commentRowOf pid c)) s.db.comments } } := by
  by_cases h : cs.isEmpty
  · have hnil : cs = [] := List.isEmpty_iff.mp h
    subst hnil
    simp [save_comments_op]
  · simp [save_comments_op, h]

/-- Existing photo row used by the C1 counterexample: it has a recorded
thumbnail path. -/
def c1Photo : Photo :=
  { id := "1", title := "old title", description := "old desc", filename := "1.jpg"
  , thumbnail_path := "thumbnails/1.jpg", date_taken := "2020-01-01", date_uploaded := "123"
  , views := 5, tags := "old", url_original := "o", url_thumbnail := "u" }

def c1Db : DB := { albums := [], photos := [c1Photo], comments := [], links := [] }

/-- The sparse album-listing payload for the same photo id. -/
def c1Pd : PhotoData :=
  { id := "1", title := some (PyVal.str "T"), description := none, tags := none
  , datetaken := none, dateupload := none, views := none, url_t := none, url_o := none }

def c1Remote : Remote :=
  { photostreamPages := [], albumsPages := [], albumPhotosPages := fun _ => []
  , info := fun _ => Except.ok none, commentsOf := fun _ => [], thumb := fun _ _ => none }

/-- C1 counterexample: for an existing, not-yet-linked photo the album sweep
does **not** leave the photo row unchanged — `save_photo_metadata_junction`
re-writes the row from the sparse listing payload via insert-or-replace, and
in particular the stored `thumbnail_path` is overwritten with the empty
string. -/
theorem album_link_only_rewrites_photo_row_counterexample :
    photo_exists (mkRunState c1Db) "1" = true ∧
    photo_in_album (mkRunState c1Db) "1" "a" = false ∧
    c1Photo.thumbnail_path = "thumbnails/1.jpg" ∧
    (download_album_photo c1Remote "NOW" c1Pd "a" (mkRunState c1Db)).1.db.photos.map
      Photo.thumbnail_path = [""] ∧
    (download_album_photo c1Remote "NOW" c1Pd "a" (mkRunState c1Db)).1.db.photos.map
      Photo.title = ["T"] := by
  refine ⟨by decide, by decide, by decide, by decide, by decide⟩

/-- C1 (amended): for an existing, not-yet-linked photo, the album sweep
performs no remote interaction at all (the outcome is identical under any
two remotes: no detail fetch, no thumbnail download, no comment fetch), it
persists the link, leaves comments, albums, the index and all other counters
unchanged and bumps only `new_associations` — but it also re-writes the
photo row as `rowOf pd none` (insert-or-replace with empty thumbnail path)
instead of leaving the row untouched. -/
theorem album_link_only_no_redownload_amended
    (r r2 : Remote) (now : String) (pd : PhotoData) (aid : String) (s : UpdState)
    (hpe : photo_exists s pd.id = true) (hia : photo_in_album s pd.id aid = false) :
    download_album_photo r now pd aid s = download_album_photo r2 now pd aid s ∧
    (download_album_photo r now pd aid s).1.db.photos =
      insertOrReplacePhoto s.db.photos (rowOf pd none) ∧
    (download_album_photo r now pd aid s).1.db.links =
      insertOrIgnoreLink s.db.links pd.id aid now ∧
    (download_album_photo r now pd aid s).1.db.comments = s.db.comments ∧
    (download_album_photo r now pd aid s).1.db.albums = s.db.albums ∧
    (download_album_photo r now pd aid s).1.existing_photo_ids = s.existing_photo_ids ∧
    (download_album_photo r now pd aid s).1.new_associations_count = s.new_associations_count + 1 ∧
    (download_album_photo r now pd aid s).1.new_photos_count = s.new_photos_count ∧
    (download_album_photo r now pd aid s).1.skipped_photos_count = s.skipped_photos_count ∧
    (download_album_photo r now pd aid s).1.photostream_new_count = s.photostream_new_count ∧
    (download_album_photo r now pd aid s).2.2 = Except.ok true := by
  refine ⟨?_, ?_⟩
  all_goals
    simp [download_album_photo, hpe, hia, save_photo_metadata_junction,
      save_photo_metadata_standalone, commitStandalone, commitJunctionLink, bumpNewAssoc]

/-- A second remote, differing from `c1Remote` in every response, for the
noninterference conjunct of the C1 witness. -/
def c1Remote2 : Remote :=
  { photostreamPages := [], albumsPages := [], albumPhotosPages := fun _ => []
  , info := fun _ => Except.error "down"
  , commentsOf := fun pid => [{ id := "c", authorname := "a", content := "t", datecreate := pid }]
  , thumb := fun pid _ => some pid }

/-- Witness for the amended C1 theorem at the concrete state of the
counterexample. -/
theorem album_link_only_no_redownload_amended_witness :
    download_album_photo c1Remote "NOW" c1Pd "a" (mkRunState c1Db) =
      download_album_photo c1Remote2 "NOW" c1Pd "a" (mkRunState c1Db) ∧
    (download_album_photo c1Remote "NOW" c1Pd "a" (mkRunState c1Db)).1.new_associations_count =
      (mkRunState c1Db).new_associations_count + 1 := by
  have h := album_link_only_no_redownload_amended c1Remote c1Remote2 "NOW" c1Pd "a"
    (mkRunState c1Db) (by decide) (by decide)
  exact ⟨h.1, h.2.2.2.2.2.2.1⟩

/-! ## C5: the classification table -/

def c5Pd : PhotoData :=
  { id := "2", title := some (PyVal.str "New"), description := none, tags := none
  , datetaken := none, dateupload := none, views := none, url_t := none, url_o := none }

def c5Db : DB := { albums := [], photos := [], comments := [], links := [] }

def c5Remote : Remote :=
  { photostreamPages := [], albumsPages := [], albumPhotosPages := fun _ => []
  , info := fun _ => Except.ok none, commentsOf := fun _ => [], thumb := fun _ _ => none }

/-- C5 counterexample: an album-sweep photo that does not exist locally
increments **both** `new_photos` and `new_associations` (the final
`if not in_album` of `download_album_photo` also fires on this path), not
only `new_photos` as the 4.4 table states. -/
theorem album_new_photo_increments_both_counters_counterexample :
    photo_exists (mkRunState c5Db) "2" = false ∧
    (download_album_photo c5Remote "NOW" c5Pd "a" (mkRunState c5Db)).1.new_photos_count = 1 ∧
    (download_album_photo c5Remote "NOW" c5Pd "a" (mkRunState c5Db)).1.new_associations_count = 1 ∧
    (download_album_photo c5Remote "NOW" c5Pd "a" (mkRunState c5Db)).1.skipped_photos_count = 0 := by
  refine ⟨by decide, by decide, by decide, by decide⟩

/-- C5 (amended): the classification of `download_photostream_photo` and
`download_album_photo` by (sweep context, photo exists, link exists), with
the counter effects the code actually has.  The only difference from the
4.4 table is the (album sweep, not exists) row, which increments
`new_associations` in addition to `new_photos`.  The rows: photostream/new
bumps `new_photos` and `photostream_new`; photostream/existing is a complete
no-op; album/new bumps `new_photos` **and** `new_associations`;
album/existing-unlinked bumps only `new_associations`;
album/existing-linked bumps only `skipped_photos`. -/
theorem classification_table_amended :
    (∀ (r : Remote) (pd : PhotoData) (s : UpdState) (oi : Option PhotoData),
      photo_exists s pd.id = false → r.info pd.id = Except.ok oi →
      (download_photostream_photo r pd s).1.new_photos_count = s.new_photos_count + 1 ∧
      (download_photostream_photo r pd s).1.photostream_new_count = s.photostream_new_count + 1 ∧
      (download_photostream_photo r pd s).1.new_associations_count = s.new_associations_count ∧
      (download_photostream_photo r pd s).1.skipped_photos_count = s.skipped_photos_count ∧
      (download_photostream_photo r pd s).1.db.links = s.db.links ∧
      (download_photostream_photo r pd s).2.2 = Except.ok true) ∧
    (∀ (r : Remote) (pd : PhotoData) (s : UpdState),
      photo_exists s pd.id = true →
      download_photostream_photo r pd s = (s, [], Except.ok false)) ∧
    (∀ (r : Remote) (now : String) (pd : PhotoData) (aid : String) (s : UpdState) (oi : Option PhotoData),
      photo_exists s pd.id = false → r.info pd.id = Except.ok oi →
      (download_album_photo r now pd aid s).1.new_photos_count = s.new_photos_count + 1 ∧
      (download_album_photo r now pd aid s).1.new_associations_count = s.new_associations_count + 1 ∧
      (download_album_photo r now pd aid s).1.skipped_photos_count = s.skipped_photos_count ∧
      (download_album_photo r now pd aid s).1.photostream_new_count = s.photostream_new_count ∧
      (download_album_photo r now pd aid s).2.2 = Except.ok true) ∧
    (∀ (r : Remote) (now : String) (pd : PhotoData) (aid : String) (s : UpdState),
      photo_exists s pd.id = true → photo_in_album s pd.id aid = false →
      (download_album_photo r now pd aid s).1.new_associations_count = s.new_associations_count + 1 ∧
      (download_album_photo r now pd aid s).1.new_photos_count = s.new_photos_count ∧
      (download_album_photo r now pd aid s).1.skipped_photos_count = s.skipped_photos_count ∧
      (download_album_photo r now pd aid s).1.photostream_new_count = s.photostream_new_count ∧
      (download_album_photo r now pd aid s).2.2 = Except.ok true) ∧
    (∀ (r : Remote) (now : String) (pd : PhotoData) (aid : String) (s : UpdState),
      photo_exists s pd.id = true → photo_in_album s pd.id aid = true →
      download_album_photo r now pd aid s = (bumpSkipped s, [bumpSkipped s], Except.ok false)) := by
  refine ⟨?_, ?_, ?_, ?_, ?_⟩
  · intro r pd s oi hpe hinfo
    simp [download_photostream_photo, hpe, hinfo, save_comments_op_state,
      save_photo_metadata_standalone, commitStandalone, indexAddS, bumpPsNew, bumpNewPhotos]
  · intro r pd s hpe
    simp [download_photostream_photo, hpe]
  · intro r now pd aid s oi hpe hinfo
    simp [download_album_photo, hpe, hinfo, save_comments_op_state,
      save_photo_metadata_junction, save_photo_metadata_standalone,
      commitStandalone, commitJunctionLink, indexAddS, bumpNewPhotos, bumpNewAssoc]
  · intro r now pd aid s hpe hia
    simp [download_album_photo, hpe, hia, save_photo_metadata_junction,
      save_photo_metadata_standalone, commitStandalone, commitJunctionLink, bumpNewAssoc]
  · intro r now pd aid s hpe hia
    simp [download_album_photo, hpe, hia, bumpSkipped]

/-- Witness for the amended classification table at concrete inputs covering
the corrected (album sweep, not exists) row and the skip row. -/
theorem classification_table_amended_witness :
    (download_album_photo c5Remote "NOW" c5Pd "a" (mkRunState c5Db)).1.new_photos_count =
      (mkRunState c5Db).new_photos_count + 1 ∧
    (download_album_photo c5Remote "NOW" c5Pd "a" (mkRunState c5Db)).1.new_associations_count =
      (mkRunState c5Db).new_associations_count + 1 ∧
    download_photostream_photo c5Remote c5Pd (mkRunState { albums := [], photos := [rowOf c5Pd none], comments := [], links := [] }) =
      (mkRunState { albums := [], photos := [rowOf c5Pd none], comments := [], links := [] }, [], Except.ok false) := by
  have h3 := classification_table_amended.2.2.1 c5Remote "NOW" c5Pd "a" (mkRunState c5Db)
    none (by decide) (by rfl)
  have h2 := classification_table_amended.2.1 c5Remote c5Pd
    (mkRunState { albums := [], photos := [rowOf c5Pd none], comments := [], links := [] }) (by decide)
  exact ⟨h3.1, h3.2.1, h2⟩

/-! ## C6: error isolation during sweeps -/

def c6X : PhotoData :=
  { id := "x", title := none, description := none, tags := none
  , datetaken := none, dateupload := none, views := none, url_t := none, url_o := none }

def c6Y : PhotoData :=
  { id := "y", title := none, description := none, tags := none
  , datetaken := none, dateupload := none, views := none, url_t := none, url_o := none }

def c6Db : DB := { albums := [], photos := [], comments := [], links := [] }

/-- Remote whose detail call raises for photo `x` only; the album `a1`
lists `x` followed by `y`. -/
def c6Remote : Remote :=
  { photostreamPages := []
  , albumsPages := [{ ok := true, message := "", items := [{ id := "a1", title := PyVal.str "A" }], pages := 1 }]
  , albumPhotosPages := fun _ => [{ ok := true, message := "", items := [c6X, c6Y], pages := 1 }]
  , info := fun pid => if pid = "x" then Except.error "boom" else Except.ok none
  , commentsOf := fun _ => []
  , thumb := fun _ _ => none }

/-- C6 counterexample: in an album sweep, a detail-fetch error on one item
aborts the whole album sweep — the later item `y` of the same sweep, whose
own fetches would succeed, is never processed (no photo row is written for
it), contrary to the claim that processing continues with the next item of
the same sweep. -/
theorem album_sweep_item_error_aborts_sweep_counterexample :
    (get_album_photos c6Remote "a1").map PhotoData.id = ["x", "y"] ∧
    c6Remote.info "y" = Except.ok none ∧
    (update_album_incremental c6Remote "NOW" "a1" "A" (mkRunState c6Db)).2.2 = some "boom" ∧
    (update_album_incremental c6Remote "NOW" "a1" "A" (mkRunState c6Db)).1.db.photos = [] ∧
    (update_album_incremental c6Remote "NOW" "a1" "A" (mkRunState c6Db)).1.db.links = [] := by
  refine ⟨by decide, by rfl, by decide, by decide, by decide⟩

/-- C6 (amended): in the photostream sweep a per-item error is caught, the
item leaves the state untouched, and processing continues with the next
item of the same sweep; in an album sweep a per-item error aborts the
remaining items of that album and propagates, and it is the **album loop**
that catches it and continues with the next album. -/
theorem sweep_item_error_isolation_amended :
    (∀ (r : Remote) (pd : PhotoData) (rest : List PhotoData) (s : UpdState) (e : String),
      photo_exists s pd.id = false → r.info pd.id = Except.error e →
      processStreamItems r (pd :: rest) s = processStreamItems r rest s) ∧
    (∀ (r : Remote) (now aid : String) (pd : PhotoData) (rest : List PhotoData) (s : UpdState) (e : String),
      photo_exists s pd.id = false → r.info pd.id = Except.error e →
      processAlbumItems r now aid (pd :: rest) s = (s, [], some e)) ∧
    (∀ (r : Remote) (now : String) (a : AlbumInfo) (rest : List AlbumInfo) (s : UpdState) (e : String),
      (update_album_incremental r now a.id (albumTitleOf a.title) s).2.2 = some e →
      (processAlbums r now (a :: rest) s).1 =
        (processAlbums r now rest (update_album_incremental r now a.id (albumTitleOf a.title) s).1).1) := by
  refine ⟨?_, ?_, ?_⟩
  · intro r pd rest s e hpe herr
    simp [processStreamItems, download_photostream_photo, hpe, herr]
  · intro r now aid pd rest s e hpe herr
    simp [processAlbumItems, download_album_photo, hpe, herr]
  · intro r now a rest s e _
    simp [processAlbums]

/-- Witness for the amended C6 theorem at the concrete failing remote. -/
theorem sweep_item_error_isolation_amended_witness :
    processStreamItems c6Remote [c6X] (mkRunState c6Db) =
      processStreamItems c6Remote [] (mkRunState c6Db) ∧
    processAlbumItems c6Remote "NOW" "a1" [c6X, c6Y] (mkRunState c6Db) =
      (mkRunState c6Db, [], some "boom") := by
  refine ⟨sweep_item_error_isolation_amended.1 c6Remote c6X [] (mkRunState c6Db) "boom"
      (by decide) (by rfl),
    sweep_item_error_isolation_amended.2.1 c6Remote "NOW" "a1" c6X [c6Y] (mkRunState c6Db) "boom"
      (by decide) (by rfl)⟩

/-! ## Helper lemmas about the persistence primitives -/

theorem mem_ids_insertOrReplacePhoto_self (rows : List Photo) (p : Photo) :
    p.id ∈ (insertOrReplacePhoto rows p).map Photo.id := by
  simp [insertOrReplacePhoto]

theorem mem_ids_insertOrReplacePhoto_of_mem (rows : List Photo) (p : Photo) (q : String)
    (hq : q ∈ rows.map Photo.id) : q ∈ (insertOrReplacePhoto rows p).map Photo.id := by
  by_cases h : q = p.id
  · subst h; exact mem_ids_insertOrReplacePhoto_self rows p
  · simp only [insertOrReplacePhoto, List.map_cons, List.mem_cons]
    right
    rcases List.mem_map.mp hq with ⟨x, hx1, hx2⟩
    exact List.mem_map.mpr ⟨x, List.mem_filter.mpr ⟨hx1, by simp [hx2, h]⟩, hx2⟩

theorem pairs_insertOrIgnoreLink (rows : List LinkRow) (pid aid now : String) :
    (insertOrIgnoreLink rows pid aid now).map (fun l => (l.photo_id, l.album_id)) =
      if (pid, aid) ∈ rows.map (fun l => (l.photo_id, l.album_id))
      then rows.map (fun l => (l.photo_id, l.album_id))
      else (pid, aid) :: rows.map (fun l => (l.photo_id, l.album_id)) := by
  by_cases h : (pid, aid) ∈ rows.map (fun l => (l.photo_id, l.album_id))
  · simp [insertOrIgnoreLink, h]
  · simp [insertOrIgnoreLink, h]

theorem mem_pairs_insertOrIgnoreLink_self (rows : List LinkRow) (pid aid now : String) :
    (pid, aid) ∈ (insertOrIgnoreLink rows pid aid now).map (fun l => (l.photo_id, l.album_id)) := by
  rw [pairs_insertOrIgnoreLink]
  by_cases h : (pid, aid) ∈ rows.map (fun l => (l.photo_id, l.album_id))
  · simp [h]
  · simp [h]

theorem mem_pairs_insertOrIgnoreLink_of_mem (rows : List LinkRow) (pid aid now : String)
    (pr : String × String) (h : pr ∈ rows.map (fun l => (l.photo_id, l.album_id))) :
    pr ∈ (insertOrIgnoreLink rows pid aid now).map (fun l => (l.photo_id, l.album_id)) := by
  rw [pairs_insertOrIgnoreLink]
  by_cases h2 : (pid, aid) ∈ rows.map (fun l => (l.photo_id, l.album_id))
  · simpa [h2] using h
  · simp [h2, h]

theorem photo_exists_false_iff (s : UpdState) (pid : String) :
    photo_exists s pid = false ↔ pid ∉ s.existing_photo_ids := by
  simp [photo_exists]

theorem photo_exists_true_iff (s : UpdState) (pid : String) :
    photo_exists s pid = true ↔ pid ∈ s.existing_photo_ids := by
  simp [photo_exists]

theorem photo_in_album_true_iff (s : UpdState) (pid aid : String) :
    photo_in_album s pid aid = true ↔ (pid, aid) ∈ linkPairs s.db := by
  simp [photo_in_album]

/-! ## C4: index/storage ordering during a sweep -/

def c4Pd : PhotoData :=
  { id := "3", title := none, description := none, tags := none
  , datetaken := none, dateupload := none, views := none, url_t := none, url_o := none }

def c4Db : DB := { albums := [], photos := [], comments := [], links := [] }

def c4Remote : Remote :=
  { photostreamPages := [], albumsPages := [], albumPhotosPages := fun _ => []
  , info := fun _ => Except.ok none, commentsOf := fun _ => [], thumb := fun _ _ => none }

/-- C4 counterexample: in the photostream path the photo row is committed
**before** the id is added to the index, so there is an intermediate state
at which the id is present in persisted storage but absent from the
Existing-State Index — the index is not a superset of storage at every
point, contrary to the claim. -/
theorem index_superset_of_storage_counterexample :
    ∃ x ∈ (download_photostream_photo c4Remote c4Pd (mkRunState c4Db)).2.1,
      "3" ∈ photoIds x.db ∧ "3" ∉ x.existing_photo_ids := by
  decide

theorem mem_save_comments_op_snaps (pid : String) (cs : List CommentData) (s : UpdState) :
    ∀ x ∈ (save_comments_op pid cs s).2, x = (save_comments_op pid cs s).1 := by
  by_cases h : cs.isEmpty <;> simp [save_comments_op, h]

theorem mem_ids_insertOrReplacePhoto_elim (rows : List Photo) (p : Photo) (q : String)
    (h : q ∈ (insertOrReplacePhoto rows p).map Photo.id) :
    q = p.id ∨ q ∈ rows.map Photo.id := by
  simp only [insertOrReplacePhoto, List.map_cons, List.mem_cons] at h
  rcases h with h | h
  · exact Or.inl h
  · right
    rcases List.mem_map.mp h with ⟨x, hx1, hx2⟩
    exact List.mem_map.mpr ⟨x, List.mem_of_mem_filter hx1, hx2⟩

/-- The snapshots of a successful photostream item, in order: the comment
save (when comments are nonempty), the photo-row commit, the index add, and
the two counter bumps. -/
theorem ps_snaps_characterization (r : Remote) (pd : PhotoData) (s : UpdState)
    (oi : Option PhotoData) (hpe : photo_exists s pd.id = false)
    (hinfo : r.info pd.id = Except.ok oi) :
    ∀ x ∈ (download_photostream_photo r pd s).2.1,
      x = (save_comments_op pd.id (r.commentsOf pd.id) s).1 ∨
      x = commitStandalone (mergeInfo pd oi) (thumbFetch r pd.id (mergeInfo pd oi).url_t)
            (save_comments_op pd.id (r.commentsOf pd.id) s).1 ∨
      x = indexAddS pd.id (commitStandalone (mergeInfo pd oi)
            (thumbFetch r pd.id (mergeInfo pd oi).url_t)
            (save_comments_op pd.id (r.commentsOf pd.id) s).1) ∨
      x = bumpPsNew (indexAddS pd.id (commitStandalone (mergeInfo pd oi)
            (thumbFetch r pd.id (mergeInfo pd oi).url_t)
            (save_comments_op pd.id (r.commentsOf pd.id) s).1)) ∨
      x = bumpNewPhotos (bumpPsNew (indexAddS pd.id (commitStandalone (mergeInfo pd oi)
            (thumbFetch r pd.id (mergeInfo pd oi).url_t)
            (save_comments_op pd.id (r.commentsOf pd.id) s).1))) := by
  intro x hx
  simp only [download_photostream_photo, hpe, hinfo, save_photo_metadata_standalone,
    Bool.false_eq_true, if_false, List.append_assoc, List.mem_append, List.cons_append,
    List.nil_append, List.mem_cons, List.not_mem_nil, or_false] at hx
  rcases hx with h | h
  · exact Or.inl (mem_save_comments_op_snaps _ _ _ x h)
  · tauto

/-- The snapshots of an album item for a photo that does not exist locally
and whose detail call succeeds, in order: the comment save (when nonempty),
the index add, the `new_photos` bump, the photo-row commit, the link commit,
and the `new_associations` bump. -/
theorem album_new_snaps_characterization (r : Remote) (now : String) (pd : PhotoData)
    (aid : String) (s : UpdState) (oi : Option PhotoData)
    (hpe : photo_exists s pd.id = false) (hinfo : r.info pd.id = Except.ok oi) :
    ∀ x ∈ (download_album_photo r now pd aid s).2.1,
      x = (save_comments_op pd.id (r.commentsOf pd.id) s).1 ∨
      x = indexAddS pd.id (save_comments_op pd.id (r.commentsOf pd.id) s).1 ∨
      x = bumpNewPhotos (indexAddS pd.id (save_comments_op pd.id (r.commentsOf pd.id) s).1) ∨
      x = commitStandalone (mergeInfo pd oi) (thumbFetch r pd.id (mergeInfo pd oi).url_t)
            (bumpNewPhotos (indexAddS pd.id (save_comments_op pd.id (r.commentsOf pd.id) s).1)) ∨
      x = commitJunctionLink (mergeInfo pd oi).id aid now
            (commitStandalone (mergeInfo pd oi) (thumbFetch r pd.id (mergeInfo pd oi).url_t)
              (bumpNewPhotos (indexAddS pd.id (save_comments_op pd.id (r.commentsOf pd.id) s).1))) ∨
      x = bumpNewAssoc (commitJunctionLink (mergeInfo pd oi).id aid now
            (commitStandalone (mergeInfo pd oi) (thumbFetch r pd.id (mergeInfo pd oi).url_t)
              (bumpNewPhotos (indexAddS pd.id (save_comments_op pd.id (r.commentsOf pd.id) s).1)))) := by
  intro x hx
  simp only [download_album_photo, hpe, hinfo, save_photo_metadata_junction,
    save_photo_metadata_standalone, Bool.false_and, Bool.false_eq_true, Bool.true_and,
    Bool.and_false, Bool.and_true, if_false, if_true, reduceIte,
    List.append_assoc, List.mem_append, List.cons_append, List.nil_append, List.append_nil,
    List.mem_cons, List.not_mem_nil, or_false] at hx
  rcases hx with h | h
  · exact Or.inl (mem_save_comments_op_snaps _ _ _ x h)
  · tauto

/-- The snapshots of an album item for an existing, unlinked photo: the
photo-row commit, the link commit, and the `new_associations` bump. -/
theorem album_link_snaps_characterization (r : Remote) (now : String) (pd : PhotoData)
    (aid : String) (s : UpdState)
    (hpe : photo_exists s pd.id = true) (hia : photo_in_album s pd.id aid = false) :
    ∀ x ∈ (download_album_photo r now pd aid s).2.1,
      x = commitStandalone pd none s ∨
      x = commitJunctionLink pd.id aid now (commitStandalone pd none s) ∨
      x = bumpNewAssoc (commitJunctionLink pd.id aid now (commitStandalone pd none s)) := by
  intro x hx
  simp only [download_album_photo, hpe, hia, save_photo_metadata_junction,
    save_photo_metadata_standalone, Bool.and_false, Bool.false_eq_true, Bool.true_and,
    Bool.and_true, if_false, if_true, reduceIte, Bool.true_eq_false,
    List.append_assoc, List.mem_append, List.cons_append,
    List.nil_append, List.append_nil, List.mem_cons, List.not_mem_nil, or_false] at hx
  tauto

theorem mem_indexAddS_self (pid : String) (s : UpdState) :
    pid ∈ (indexAddS pid s).existing_photo_ids := by
  by_cases h : pid ∈ s.existing_photo_ids <;> simp [indexAddS, h]

theorem mem_indexAddS_of_mem (pid q : String) (s : UpdState)
    (h : q ∈ s.existing_photo_ids) : q ∈ (indexAddS pid s).existing_photo_ids := by
  by_cases h2 : pid ∈ s.existing_photo_ids <;> simp [indexAddS, h2, h]

/-- The skip branch of `download_album_photo` as an equation. -/
theorem download_album_photo_skip_eq (r : Remote) (now : String) (pd : PhotoData)
    (aid : String) (s : UpdState)
    (hpe : photo_exists s pd.id = true) (hia : photo_in_album s pd.id aid = true) :
    download_album_photo r now pd aid s = (bumpSkipped s, [bumpSkipped s], Except.ok false) := by
  simp [download_album_photo, hpe, hia, bumpSkipped]

/-- C4 (amended): during the photostream path the photo row is committed
before the id enters the index (write-then-index), so some intermediate
state has the id in storage but not in the index, and no intermediate state
has it in the index without it being in storage; during the album download
path the id enters the index before the row is persisted (index-then-write),
and under an id-consistent remote the index remains a superset of the
stored photo ids at every intermediate state of an album item. -/
theorem index_write_ordering_amended :
    (∀ (r : Remote) (pd : PhotoData) (s : UpdState) (oi : Option PhotoData),
      photo_exists s pd.id = false → r.info pd.id = Except.ok oi →
      (mergeInfo pd oi).id = pd.id →
      (∃ x ∈ (download_photostream_photo r pd s).2.1,
        pd.id ∈ photoIds x.db ∧ pd.id ∉ x.existing_photo_ids) ∧
      (∀ x ∈ (download_photostream_photo r pd s).2.1,
        pd.id ∈ x.existing_photo_ids → pd.id ∈ photoIds x.db)) ∧
    (∀ (r : Remote) (now : String) (pd : PhotoData) (aid : String) (s : UpdState) (oi : Option PhotoData),
      photo_exists s pd.id = false → pd.id ∉ photoIds s.db →
      r.info pd.id = Except.ok oi →
      ∃ x ∈ (download_album_photo r now pd aid s).2.1,
        pd.id ∈ x.existing_photo_ids ∧ pd.id ∉ photoIds x.db) ∧
    (∀ (r : Remote) (now : String) (pd : PhotoData) (aid : String) (s : UpdState),
      (∀ i, r.info pd.id = Except.ok (some i) → i.id = pd.id) →
      (∀ p ∈ photoIds s.db, p ∈ s.existing_photo_ids) →
      ∀ x ∈ (download_album_photo r now pd aid s).2.1,
        ∀ p ∈ photoIds x.db, p ∈ x.existing_photo_ids) := by
  refine ⟨?_, ?_, ?_⟩
  · intro r pd s oi hpe hinfo hid
    have hnotmem : pd.id ∉ s.existing_photo_ids := (photo_exists_false_iff s pd.id).mp hpe
    have hrid : (rowOf (mergeInfo pd oi) (thumbFetch r pd.id (mergeInfo pd oi).url_t)).id = pd.id := by
      simp [rowOf, hid]
    have hself := mem_ids_insertOrReplacePhoto_self
      (save_comments_op pd.id (r.commentsOf pd.id) s).1.db.photos
      (rowOf (mergeInfo pd oi) (thumbFetch r pd.id (mergeInfo pd oi).url_t))
    rw [hrid] at hself
    constructor
    · refine ⟨commitStandalone (mergeInfo pd oi) (thumbFetch r pd.id (mergeInfo pd oi).url_t)
        (save_comments_op pd.id (r.commentsOf pd.id) s).1, ?_, ?_, ?_⟩
      · simp [download_photostream_photo, hpe, hinfo, save_photo_metadata_standalone]
      · exact hself
      · simp [commitStandalone, save_comments_op_state, hnotmem]
    · intro x hx hxid
      rcases ps_snaps_characterization r pd s oi hpe hinfo x hx with h | h | h | h | h
      · exfalso
        rw [save_comments_op_state] at h
        subst h
        exact absurd hxid hnotmem
      · subst h; exact hself
      · subst h; exact hself
      · subst h; exact hself
      · subst h; exact hself
  · intro r now pd aid s oi hpe hnotdb hinfo
    have hnotmem : pd.id ∉ s.existing_photo_ids := (photo_exists_false_iff s pd.id).mp hpe
    refine ⟨indexAddS pd.id (save_comments_op pd.id (r.commentsOf pd.id) s).1, ?_, ?_, ?_⟩
    · simp [download_album_photo, hpe, hinfo]
    · exact mem_indexAddS_self pd.id _
    · rw [save_comments_op_state]
      simpa [indexAddS, photoIds] using hnotdb
  · intro r now pd aid s hid hsup x hx
    by_cases hpe : photo_exists s pd.id = true
    · by_cases hia : photo_in_album s pd.id aid = true
      · rw [download_album_photo_skip_eq r now pd aid s hpe hia] at hx
        simp only [List.mem_singleton] at hx
        subst hx
        exact hsup
      · have hia2 : photo_in_album s pd.id aid = false := by
          revert hia; cases photo_in_album s pd.id aid <;> simp
        have hmem : pd.id ∈ s.existing_photo_ids := (photo_exists_true_iff s pd.id).mp hpe
        have key : ∀ p ∈ photoIds (commitStandalone pd none s).db, p ∈ s.existing_photo_ids := by
          intro p hp
          rcases mem_ids_insertOrReplacePhoto_elim s.db.photos (rowOf pd none) p hp with h | h
          · rw [h]; exact hmem
          · exact hsup p h
        rcases album_link_snaps_characterization r now pd aid s hpe hia2 x hx with h | h | h
        · subst h; exact key
        · subst h; exact key
        · subst h; exact key
    · have hpe2 : photo_exists s pd.id = false := by
        revert hpe; cases photo_exists s pd.id <;> simp
      have hnotmem : pd.id ∉ s.existing_photo_ids := (photo_exists_false_iff s pd.id).mp hpe2
      rcases hr : r.info pd.id with e | oi
      · simp [download_album_photo, hpe2, hr] at hx
      · have hid2 : (mergeInfo pd oi).id = pd.id := by
          cases oi with
          | none => rfl
          | some i => exact hid i hr
        have hscs := save_comments_op_state pd.id (r.commentsOf pd.id) s
        have base : ∀ p ∈ photoIds (save_comments_op pd.id (r.commentsOf pd.id) s).1.db,
            p ∈ (save_comments_op pd.id (r.commentsOf pd.id) s).1.existing_photo_ids := by
          rw [hscs]; exact hsup
        have stepIdx : ∀ p ∈ photoIds (indexAddS pd.id (save_comments_op pd.id (r.commentsOf pd.id) s).1).db,
            p ∈ (indexAddS pd.id (save_comments_op pd.id (r.commentsOf pd.id) s).1).existing_photo_ids := by
          intro p hp
          exact mem_indexAddS_of_mem pd.id p _ (base p hp)
        have keySave : ∀ p ∈ photoIds (commitStandalone (mergeInfo pd oi)
            (thumbFetch r pd.id (mergeInfo pd oi).url_t)
            (bumpNewPhotos (indexAddS pd.id (save_comments_op pd.id (r.commentsOf pd.id) s).1))).db,
            p ∈ (indexAddS pd.id (save_comments_op pd.id (r.commentsOf pd.id) s).1).existing_photo_ids := by
          intro p hp
          rcases mem_ids_insertOrReplacePhoto_elim _ _ p hp with h | h
          · have hre : (rowOf (mergeInfo pd oi) (thumbFetch r pd.id (mergeInfo pd oi).url_t)).id = pd.id := by
              simp [rowOf, hid2]
            rw [hre] at h
            rw [h]; exact mem_indexAddS_self pd.id _
          · exact stepIdx p h
        rcases album_new_snaps_characterization r now pd aid s oi hpe2 hr x hx with h | h | h | h | h | h
        · subst h; exact base
        · subst h; exact stepIdx
        · subst h; exact stepIdx
        · subst h; exact keySave
        · subst h; exact keySave
        · subst h; exact keySave

/-- Witness for the amended C4 theorem: the photostream path of the
counterexample input, write-then-index. -/
theorem index_write_ordering_amended_witness :
    (∃ x ∈ (download_photostream_photo c4Remote c4Pd (mkRunState c4Db)).2.1,
      c4Pd.id ∈ photoIds x.db ∧ c4Pd.id ∉ x.existing_photo_ids) ∧
    (∀ x ∈ (download_photostream_photo c4Remote c4Pd (mkRunState c4Db)).2.1,
      c4Pd.id ∈ x.existing_photo_ids → c4Pd.id ∈ photoIds x.db) :=
  index_write_ordering_amended.1 c4Remote c4Pd (mkRunState c4Db) none (by decide) (by rfl) (by rfl)

/-! ## C2: every link row references an existing photo row, at every commit point -/

/-- The referential invariant: every junction row's `photo_id` has a photo
row in storage. -/
def LinksRefPhotos (db : DB) : Prop := ∀ pr ∈ linkPairs db, pr.1 ∈ photoIds db

theorem linksRef_save_comments (pid : String) (cs : List CommentData) (s : UpdState)
    (h : LinksRefPhotos s.db) : LinksRefPhotos (save_comments_op pid cs s).1.db := by
  rw [save_comments_op_state]
  exact h

theorem linksRef_commitStandalone (pd : PhotoData) (tp : Option String) (s : UpdState)
    (h : LinksRefPhotos s.db) : LinksRefPhotos (commitStandalone pd tp s).db := by
  intro pr hpr
  exact mem_ids_insertOrReplacePhoto_of_mem _ _ _ (h pr hpr)

theorem linksRef_commitAlbumMeta (aid title desc : String) (count : Nat) (now : String)
    (s : UpdState) (h : LinksRefPhotos s.db) :
    LinksRefPhotos (commitAlbumMeta aid title desc count now s).db := h

/-- After the junction save of `pd`, the freshly inserted link pair refers to
the photo row committed by the immediately preceding standalone save. -/
theorem linksRef_commitJunctionAfterStandalone (pd : PhotoData) (aid now : String)
    (tp : Option String) (s : UpdState) (h : LinksRefPhotos s.db) :
    LinksRefPhotos (commitJunctionLink pd.id aid now (commitStandalone pd tp s)).db := by
  intro pr hpr
  have hpr2 : pr ∈ (insertOrIgnoreLink (commitStandalone pd tp s).db.links pd.id aid now).map
      (fun l => (l.photo_id, l.album_id)) := hpr
  rw [pairs_insertOrIgnoreLink] at hpr2
  by_cases hmem : (pd.id, aid) ∈ (commitStandalone pd tp s).db.links.map (fun l => (l.photo_id, l.album_id))
  · rw [if_pos hmem] at hpr2
    exact linksRef_commitStandalone pd tp s h pr hpr2
  · rw [if_neg hmem] at hpr2
    rcases List.mem_cons.mp hpr2 with h3 | h3
    · subst h3
      exact mem_ids_insertOrReplacePhoto_self s.db.photos (rowOf pd tp)
    · exact linksRef_commitStandalone pd tp s h pr h3

theorem linksRef_download_ps (r : Remote) (pd : PhotoData) (s : UpdState)
    (h : LinksRefPhotos s.db) :
    (∀ x ∈ (download_photostream_photo r pd s).2.1, LinksRefPhotos x.db) ∧
    LinksRefPhotos (download_photostream_photo r pd s).1.db := by
  by_cases hpe : photo_exists s pd.id = true
  · simp only [download_photostream_photo, hpe, if_true]
    exact ⟨by simp, h⟩
  · have hpe2 : photo_exists s pd.id = false := by
      revert hpe; cases photo_exists s pd.id <;> simp
    rcases hr : r.info pd.id with e | oi
    · simp only [download_photostream_photo, hpe2, Bool.false_eq_true, if_false, hr]
      exact ⟨by simp, h⟩
    · have hc := linksRef_save_comments pd.id (r.commentsOf pd.id) s h
      have hsave := linksRef_commitStandalone (mergeInfo pd oi)
        (thumbFetch r pd.id (mergeInfo pd oi).url_t) _ hc
      constructor
      · intro x hx
        rcases ps_snaps_characterization r pd s oi hpe2 hr x hx with h1 | h1 | h1 | h1 | h1 <;>
          subst h1
        · exact hc
        · exact hsave
        · exact hsave
        · exact hsave
        · exact hsave
      · simp only [download_photostream_photo, hpe2, Bool.false_eq_true, if_false, hr]
        exact hsave

theorem linksRef_download_album (r : Remote) (now : String) (pd : PhotoData) (aid : String)
    (s : UpdState) (h : LinksRefPhotos s.db) :
    (∀ x ∈ (download_album_photo r now pd aid s).2.1, LinksRefPhotos x.db) ∧
    LinksRefPhotos (download_album_photo r now pd aid s).1.db := by
  by_cases hpe : photo_exists s pd.id = true
  · by_cases hia : photo_in_album s pd.id aid = true
    · rw [download_album_photo_skip_eq r now pd aid s hpe hia]
      exact ⟨by intro x hx; simp only [List.mem_singleton] at hx; subst hx; exact h, h⟩
    · have hia2 : photo_in_album s pd.id aid = false := by
        revert hia; cases photo_in_album s pd.id aid <;> simp
      have hsave := linksRef_commitStandalone pd none s h
      have hlink := linksRef_commitJunctionAfterStandalone pd aid now none s h
      constructor
      · intro x hx
        rcases album_link_snaps_characterization r now pd aid s hpe hia2 x hx with h1 | h1 | h1 <;>
          subst h1
        · exact hsave
        · exact hlink
        · exact hlink
      · simp only [download_album_photo, hpe, hia2, save_photo_metadata_junction,
          save_photo_metadata_standalone, Bool.and_false, Bool.false_eq_true, Bool.true_eq_false,
          if_false, reduceIte]
        exact hlink
  · have hpe2 : photo_exists s pd.id = false := by
      revert hpe; cases photo_exists s pd.id <;> simp
    rcases hr : r.info pd.id with e | oi
    · simp only [download_album_photo, hpe2, Bool.false_eq_true, Bool.false_and, if_false, hr, reduceIte]
      exact ⟨by simp, h⟩
    · have hc := linksRef_save_comments pd.id (r.commentsOf pd.id) s h
      have hcidx : LinksRefPhotos (bumpNewPhotos (indexAddS pd.id
          (save_comments_op pd.id (r.commentsOf pd.id) s).1)).db := hc
      have hsave := linksRef_commitStandalone (mergeInfo pd oi)
        (thumbFetch r pd.id (mergeInfo pd oi).url_t) _ hcidx
      have hlink := linksRef_commitJunctionAfterStandalone (mergeInfo pd oi) aid now
        (thumbFetch r pd.id (mergeInfo pd oi).url_t) _ hcidx
      constructor
      · intro x hx
        rcases album_new_snaps_characterization r now pd aid s oi hpe2 hr x hx with
          h1 | h1 | h1 | h1 | h1 | h1 <;> subst h1
        · exact hc
        · exact hc
        · exact hc
        · exact hsave
        · exact hlink
        · exact hlink
      · simp only [download_album_photo, hpe2, Bool.false_eq_true, Bool.false_and, if_false,
          hr, reduceIte, save_photo_metadata_junction, save_photo_metadata_standalone]
        exact hlink

theorem linksRef_processStreamItems (r : Remote) (l : List PhotoData) :
    ∀ s : UpdState, LinksRefPhotos s.db →
    (∀ x ∈ (processStreamItems r l s).2, LinksRefPhotos x.db) ∧
    LinksRefPhotos (processStreamItems r l s).1.db := by
  induction l with
  | nil => intro s h; exact ⟨by simp [processStreamItems], h⟩
  | cons pd rest ih =>
      intro s h
      have hd := linksRef_download_ps r pd s h
      have ht := ih (download_photostream_photo r pd s).1 hd.2
      constructor
      · intro x hx
        simp only [processStreamItems, List.mem_append] at hx
        rcases hx with hx | hx
        · exact hd.1 x hx
        · exact ht.1 x hx
      · exact ht.2

theorem linksRef_processAlbumItems (r : Remote) (now aid : String) (l : List PhotoData) :
    ∀ s : UpdState, LinksRefPhotos s.db →
    (∀ x ∈ (processAlbumItems r now aid l s).2.1, LinksRefPhotos x.db) ∧
    LinksRefPhotos (processAlbumItems r now aid l s).1.db := by
  induction l with
  | nil => intro s h; exact ⟨by simp [processAlbumItems], h⟩
  | cons pd rest ih =>
      intro s h
      have hd := linksRef_download_album r now pd aid s h
      rcases hres : (download_album_photo r now pd aid s).2.2 with e | b
      · constructor
        · intro x hx
          simp only [processAlbumItems, hres, List.mem_append] at hx
          exact hd.1 x hx
        · simp only [processAlbumItems, hres]
          exact hd.2
      · have ht := ih (download_album_photo r now pd aid s).1 hd.2
        constructor
        · intro x hx
          simp only [processAlbumItems, hres, List.mem_append] at hx
          rcases hx with hx | hx
          · exact hd.1 x hx
          · exact ht.1 x hx
        · simp only [processAlbumItems, hres]
          exact ht.2

theorem linksRef_update_album_incremental (r : Remote) (now aid title : String) (s : UpdState)
    (h : LinksRefPhotos s.db) :
    (∀ x ∈ (update_album_incremental r now aid title s).2.1, LinksRefPhotos x.db) ∧
    LinksRefPhotos (update_album_incremental r now aid title s).1.db := by
  have hm : LinksRefPhotos (commitAlbumMeta aid title "" (get_album_photos r aid).length now s).db :=
    linksRef_commitAlbumMeta _ _ _ _ _ s h
  have ht := linksRef_processAlbumItems r now aid (get_album_photos r aid) _ hm
  constructor
  · intro x hx
    simp only [update_album_incremental, List.mem_cons] at hx
    rcases hx with hx | hx
    · subst hx; exact hm
    · exact ht.1 x hx
  · exact ht.2

theorem linksRef_processAlbums (r : Remote) (now : String) (l : List AlbumInfo) :
    ∀ s : UpdState, LinksRefPhotos s.db →
    (∀ x ∈ (processAlbums r now l s).2, LinksRefPhotos x.db) ∧
    LinksRefPhotos (processAlbums r now l s).1.db := by
  induction l with
  | nil => intro s h; exact ⟨by simp [processAlbums], h⟩
  | cons a rest ih =>
      intro s h
      have hd := linksRef_update_album_incremental r now a.id (albumTitleOf a.title) s h
      have ht := ih (update_album_incremental r now a.id (albumTitleOf a.title) s).1 hd.2
      constructor
      · intro x hx
        simp only [processAlbums, List.mem_append] at hx
        rcases hx with hx | hx
        · exact hd.1 x hx
        · exact ht.1 x hx
      · exact ht.2

theorem linksRef_comprehensive (r : Remote) (now : String) (s : UpdState)
    (h : LinksRefPhotos s.db) :
    (∀ x ∈ (comprehensive_update r now s).2, LinksRefPhotos x.db) ∧
    LinksRefPhotos (comprehensive_update r now s).1.db := by
  have hps := linksRef_processStreamItems r
    (get_recent_photostream_photos r s.existing_photo_ids 90).1 s h
  have hps2 : LinksRefPhotos (update_photostream r s).1.db := hps.2
  rcases halb : get_user_albums r with e | albums
  · constructor
    · intro x hx
      simp only [comprehensive_update, update_albums, halb, List.mem_append, List.append_nil] at hx
      exact hps.1 x hx
    · simp only [comprehensive_update, update_albums, halb]
      exact hps2
  · have hal := linksRef_processAlbums r now albums (update_photostream r s).1 hps2
    constructor
    · intro x hx
      simp only [comprehensive_update, update_albums, halb, List.mem_append] at hx
      rcases hx with hx | hx
      · exact hps.1 x hx
      · exact hal.1 x hx
    · simp only [comprehensive_update, update_albums, halb]
      exact hal.2

/-- C2: starting from a database in which every link row references an
existing photo row, at **every** intermediate state of a full sync run
(after every single transaction commit, in particular at the moment each
link row is committed) every link row's `photo_id` has a photo row in
storage: the photo row is always committed before a link row referencing
it. -/
theorem photo_row_before_link_row (r : Remote) (now : String) (db : DB)
    (h : LinksRefPhotos db) :
    ∀ x ∈ runTrace r now db, LinksRefPhotos x.db := by
  intro x hx
  simp only [runTrace, List.mem_cons] at hx
  rcases hx with hx | hx
  · subst hx; exact h
  · exact (linksRef_comprehensive r now (mkRunState db) h).1 x hx

def c2Pd : PhotoData :=
  { id := "p2", title := none, description := none, tags := none
  , datetaken := none, dateupload := none, views := none, url_t := none, url_o := none }

def c2Remote : Remote :=
  { photostreamPages := [{ ok := true, message := "", items := [c2Pd], pages := 1 }]
  , albumsPages := [{ ok := true, message := "", items := [{ id := "a1", title := PyVal.str "A" }], pages := 1 }]
  , albumPhotosPages := fun _ => [{ ok := true, message := "", items := [c2Pd], pages := 1 }]
  , info := fun _ => Except.ok none
  , commentsOf := fun _ => []
  , thumb := fun _ _ => none }

def c2Db : DB := { albums := [], photos := [], comments := [], links := [] }

/-- Witness for C2 on a concrete run that commits a photo and a link. -/
theorem photo_row_before_link_row_witness :
    LinksRefPhotos c2Db ∧
    (∀ x ∈ runTrace c2Remote "NOW" c2Db, LinksRefPhotos x.db) :=
  ⟨by intro pr hpr; simp [c2Db, linkPairs] at hpr,
   photo_row_before_link_row c2Remote "NOW" c2Db
     (by intro pr hpr; simp [c2Db, linkPairs] at hpr)⟩

/-! ## C8: uniqueness of link pairs and insert-or-ignore semantics -/

theorem pairs_nodup_insertOrIgnoreLink (rows : List LinkRow) (pid aid now : String)
    (h : (rows.map (fun l => (l.photo_id, l.album_id))).Nodup) :
    ((insertOrIgnoreLink rows pid aid now).map (fun l => (l.photo_id, l.album_id))).Nodup := by
  rw [pairs_insertOrIgnoreLink]
  by_cases hmem : (pid, aid) ∈ rows.map (fun l => (l.photo_id, l.album_id))
  · rw [if_pos hmem]; exact h
  · rw [if_neg hmem]; exact List.nodup_cons.mpr ⟨hmem, h⟩

theorem links_download_ps_eq (r : Remote) (pd : PhotoData) (s : UpdState) :
    (download_photostream_photo r pd s).1.db.links = s.db.links := by
  by_cases hpe : photo_exists s pd.id = true
  · simp [download_photostream_photo, hpe]
  · have hpe2 : photo_exists s pd.id = false := by
      revert hpe; cases photo_exists s pd.id <;> simp
    rcases hr : r.info pd.id with e | oi
    · simp [download_photostream_photo, hpe2, hr]
    · simp only [download_photostream_photo, hpe2, Bool.false_eq_true, if_false, hr,
        save_photo_metadata_standalone]
      rw [show (bumpNewPhotos (bumpPsNew (indexAddS pd.id (commitStandalone (mergeInfo pd oi)
        (thumbFetch r pd.id (mergeInfo pd oi).url_t)
        (save_comments_op pd.id (r.commentsOf pd.id) s).1)))).db.links =
        (save_comments_op pd.id (r.commentsOf pd.id) s).1.db.links from rfl]
      rw [save_comments_op_state]

theorem nodup_download_album (r : Remote) (now : String) (pd : PhotoData) (aid : String)
    (s : UpdState) (h : (linkPairs s.db).Nodup) :
    (linkPairs (download_album_photo r now pd aid s).1.db).Nodup := by
  by_cases hpe : photo_exists s pd.id = true
  · by_cases hia : photo_in_album s pd.id aid = true
    · rw [download_album_photo_skip_eq r now pd aid s hpe hia]
      exact h
    · have hia2 : photo_in_album s pd.id aid = false := by
        revert hia; cases photo_in_album s pd.id aid <;> simp
      simp only [download_album_photo, hpe, hia2, save_photo_metadata_junction,
        save_photo_metadata_standalone, Bool.and_false, Bool.false_eq_true, Bool.true_eq_false,
        if_false, reduceIte]
      exact pairs_nodup_insertOrIgnoreLink _ pd.id aid now h
  · have hpe2 : photo_exists s pd.id = false := by
      revert hpe; cases photo_exists s pd.id <;> simp
    rcases hr : r.info pd.id with e | oi
    · simp only [download_album_photo, hpe2, Bool.false_eq_true, Bool.false_and, if_false, hr, reduceIte]
      exact h
    · simp only [download_album_photo, hpe2, Bool.false_eq_true, Bool.false_and, if_false,
        hr, reduceIte, save_photo_metadata_junction, save_photo_metadata_standalone]
      refine pairs_nodup_insertOrIgnoreLink _ (mergeInfo pd oi).id aid now ?_
      have : (commitStandalone (mergeInfo pd oi) (thumbFetch r pd.id (mergeInfo pd oi).url_t)
          (bumpNewPhotos (indexAddS pd.id (save_comments_op pd.id (r.commentsOf pd.id) s).1))).db.links =
          (save_comments_op pd.id (r.commentsOf pd.id) s).1.db.links := rfl
      rw [show ((commitStandalone (mergeInfo pd oi) (thumbFetch r pd.id (mergeInfo pd oi).url_t)
          (bumpNewPhotos (indexAddS pd.id (save_comments_op pd.id (r.commentsOf pd.id) s).1))).db.links.map
          (fun l => (l.photo_id, l.album_id))) =
          ((save_comments_op pd.id (r.commentsOf pd.id) s).1.db.links.map
          (fun l => (l.photo_id, l.album_id))) from by rw [this]]
      rw [save_comments_op_state]
      exact h

theorem nodup_processStreamItems (r : Remote) (l : List PhotoData) :
    ∀ s : UpdState, (linkPairs s.db).Nodup →
    (linkPairs (processStreamItems r l s).1.db).Nodup := by
  induction l with
  | nil => intro s h; exact h
  | cons pd rest ih =>
      intro s h
      have heq := links_download_ps_eq r pd s
      have hd : (linkPairs (download_photostream_photo r pd s).1.db).Nodup := by
        unfold linkPairs
        rw [heq]
        exact h
      exact ih _ hd

theorem nodup_processAlbumItems (r : Remote) (now aid : String) (l : List PhotoData) :
    ∀ s : UpdState, (linkPairs s.db).Nodup →
    (linkPairs (processAlbumItems r now aid l s).1.db).Nodup := by
  induction l with
  | nil => intro s h; exact h
  | cons pd rest ih =>
      intro s h
      have hd := nodup_download_album r now pd aid s h
      rcases hres : (download_album_photo r now pd aid s).2.2 with e | b
      · simp only [processAlbumItems, hres]
        exact hd
      · simp only [processAlbumItems, hres]
        exact ih _ hd

theorem nodup_processAlbums (r : Remote) (now : String) (l : List AlbumInfo) :
    ∀ s : UpdState, (linkPairs s.db).Nodup →
    (linkPairs (processAlbums r now l s).1.db).Nodup := by
  induction l with
  | nil => intro s h; exact h
  | cons a rest ih =>
      intro s h
      have hd := nodup_processAlbumItems r now a.id (get_album_photos r a.id)
        (commitAlbumMeta a.id (albumTitleOf a.title) "" (get_album_photos r a.id).length now s) h
      exact ih _ hd

theorem nodup_runSync (r : Remote) (now : String) (db : DB)
    (h : (linkPairs db).Nodup) : (linkPairs (runSync r now db).db).Nodup := by
  have hps := nodup_processStreamItems r
    (get_recent_photostream_photos r (mkRunState db).existing_photo_ids 90).1 (mkRunState db) h
  rcases halb : get_user_albums r with e | albums
  · simp only [runSync, comprehensive_update, update_albums, halb]
    exact hps
  · simp only [runSync, comprehensive_update, update_albums, halb]
    exact nodup_processAlbums r now albums _ hps

/-- C8: re-inserting an existing `(photo_id, album_id)` pair is a no-op
(insert-or-ignore), and across any number of sync runs the junction table
never holds two rows with the same composite key. -/
theorem link_insert_or_ignore_and_uniqueness :
    (∀ (rows : List LinkRow) (pid aid now : String),
      (pid, aid) ∈ rows.map (fun l => (l.photo_id, l.album_id)) →
      insertOrIgnoreLink rows pid aid now = rows) ∧
    (∀ (runs : List (Remote × String)) (db : DB), (linkPairs db).Nodup →
      (linkPairs (runs.foldl (fun d rn => (runSync rn.1 rn.2 d).db) db)).Nodup) := by
  constructor
  · intro rows pid aid now h
    simp [insertOrIgnoreLink, h]
  · intro runs
    induction runs with
    | nil => intro db h; exact h
    | cons rn rest ih =>
        intro db h
        exact ih _ (nodup_runSync rn.1 rn.2 db h)

/-- Witness for C8: a re-inserted pair is returned unchanged, and a concrete
run keeps the junction pairs duplicate-free. -/
theorem link_insert_or_ignore_and_uniqueness_witness :
    insertOrIgnoreLink [{ photo_id := "p", album_id := "a", is_primary := 1, date_added := "T" }]
      "p" "a" "T2" = [{ photo_id := "p", album_id := "a", is_primary := 1, date_added := "T" }] ∧
    (linkPairs ([(c2Remote, "N")].foldl (fun d rn => (runSync rn.1 rn.2 d).db)
      { albums := [], photos := [], comments := [], links := [] })).Nodup := by
  refine ⟨link_insert_or_ignore_and_uniqueness.1 _ "p" "a" "T2" (by decide), ?_⟩
  exact link_insert_or_ignore_and_uniqueness.2 [(c2Remote, "N")]
    { albums := [], photos := [], comments := [], links := [] } (by simp [linkPairs])

/-! ## C3: idempotence of a full sync -/

/-- A remote whose per-photo detail call never raises and always reports the
photo id it was asked about (every real, completed run satisfies this). -/
def GoodInfo (r : Remote) : Prop :=
  ∀ pid, (∃ v, r.info pid = Except.ok v) ∧
    (∀ i, r.info pid = Except.ok (some i) → i.id = pid)

theorem mergeInfo_id_of_good (r : Remote) (pd : PhotoData) (oi : Option PhotoData)
    (hgi : GoodInfo r) (hr : r.info pd.id = Except.ok oi) :
    (mergeInfo pd oi).id = pd.id := by
  cases oi with
  | none => rfl
  | some i => exact (hgi pd.id).2 i hr

/-- Final state of a photostream item that is actually downloaded. -/
theorem download_ps_ok_final (r : Remote) (pd : PhotoData) (s : UpdState)
    (oi : Option PhotoData) (hpe : photo_exists s pd.id = false)
    (hr : r.info pd.id = Except.ok oi) :
    (download_photostream_photo r pd s).1 =
      bumpNewPhotos (bumpPsNew (indexAddS pd.id (commitStandalone (mergeInfo pd oi)
        (thumbFetch r pd.id (mergeInfo pd oi).url_t)
        (save_comments_op pd.id (r.commentsOf pd.id) s).1))) := by
  simp only [download_photostream_photo, hpe, Bool.false_eq_true, if_false, hr,
    save_photo_metadata_standalone]

/-- Final state of an album item that is actually downloaded. -/
theorem download_album_new_final (r : Remote) (now : String) (pd : PhotoData) (aid : String)
    (s : UpdState) (oi : Option PhotoData) (hpe : photo_exists s pd.id = false)
    (hr : r.info pd.id = Except.ok oi) :
    (download_album_photo r now pd aid s).1 =
      bumpNewAssoc (commitJunctionLink (mergeInfo pd oi).id aid now
        (commitStandalone (mergeInfo pd oi) (thumbFetch r pd.id (mergeInfo pd oi).url_t)
          (bumpNewPhotos (indexAddS pd.id (save_comments_op pd.id (r.commentsOf pd.id) s).1)))) := by
  simp only [download_album_photo, hpe, Bool.false_eq_true, Bool.false_and, if_false, hr,
    reduceIte, save_photo_metadata_junction, save_photo_metadata_standalone]

/-- Final state of an album item that only gains a link. -/
theorem download_album_link_final (r : Remote) (now : String) (pd : PhotoData) (aid : String)
    (s : UpdState) (hpe : photo_exists s pd.id = true)
    (hia : photo_in_album s pd.id aid = false) :
    (download_album_photo r now pd aid s).1 =
      bumpNewAssoc (commitJunctionLink pd.id aid now (commitStandalone pd none s)) := by
  simp only [download_album_photo, hpe, hia, Bool.and_false, Bool.true_eq_false,
    Bool.false_eq_true, if_false, reduceIte, save_photo_metadata_junction,
    save_photo_metadata_standalone]

/-- State growth during a run: the photo-id set, the link-pair set, and the
in-memory index only ever gain members. -/
def StLe (s t : UpdState) : Prop :=
  (∀ p ∈ photoIds s.db, p ∈ photoIds t.db) ∧
  (∀ pr ∈ linkPairs s.db, pr ∈ linkPairs t.db) ∧
  (∀ p ∈ s.existing_photo_ids, p ∈ t.existing_photo_ids)

theorem stle_refl (s : UpdState) : StLe s s :=
  ⟨fun _ h => h, fun _ h => h, fun _ h => h⟩

theorem stle_trans (s t u : UpdState) (h1 : StLe s t) (h2 : StLe t u) : StLe s u :=
  ⟨fun p hp => h2.1 p (h1.1 p hp), fun pr hpr => h2.2.1 pr (h1.2.1 pr hpr),
   fun p hp => h2.2.2 p (h1.2.2 p hp)⟩

/-- The in-memory index only contains ids that storage also has. -/
def IdxSub (s : UpdState) : Prop := ∀ p ∈ s.existing_photo_ids, p ∈ photoIds s.db

theorem photos_save_comments (pid : String) (cs : List CommentData) (s : UpdState) :
    (save_comments_op pid cs s).1.db.photos = s.db.photos := by
  rw [save_comments_op_state]

theorem links_save_comments (pid : String) (cs : List CommentData) (s : UpdState) :
    (save_comments_op pid cs s).1.db.links = s.db.links := by
  rw [save_comments_op_state]

theorem idx_save_comments (pid : String) (cs : List CommentData) (s : UpdState) :
    (save_comments_op pid cs s).1.existing_photo_ids = s.existing_photo_ids := by
  rw [save_comments_op_state]

theorem mem_idx_indexAddS_iff (pid q : String) (s : UpdState) :
    q ∈ (indexAddS pid s).existing_photo_ids ↔ (q = pid ∨ q ∈ s.existing_photo_ids) := by
  by_cases hm : pid ∈ s.existing_photo_ids
  · simp only [indexAddS, hm, if_pos]
    constructor
    · exact fun h => Or.inr h
    · intro h
      rcases h with h | h
      · subst h; exact hm
      · exact h
  · simp [indexAddS, hm]

theorem ps_item_props (r : Remote) (pd : PhotoData) (s : UpdState)
    (hgi : GoodInfo r) (hs : IdxSub s) :
    IdxSub (download_photostream_photo r pd s).1 ∧
    StLe s (download_photostream_photo r pd s).1 ∧
    pd.id ∈ photoIds (download_photostream_photo r pd s).1.db := by
  by_cases hpe : photo_exists s pd.id = true
  · have hfin : (download_photostream_photo r pd s).1 = s := by
      simp [download_photostream_photo, hpe]
    rw [hfin]
    exact ⟨hs, stle_refl s, hs pd.id ((photo_exists_true_iff s pd.id).mp hpe)⟩
  · have hpe2 : photo_exists s pd.id = false := by
      revert hpe; cases photo_exists s pd.id <;> simp
    obtain ⟨oi, hr⟩ := (hgi pd.id).1
    have hid : (mergeInfo pd oi).id = pd.id := mergeInfo_id_of_good r pd oi hgi hr
    rw [download_ps_ok_final r pd s oi hpe2 hr]
    have hrow : (rowOf (mergeInfo pd oi) (thumbFetch r pd.id (mergeInfo pd oi).url_t)).id = pd.id := by
      simp [rowOf, hid]
    have hcphotos := photos_save_comments pd.id (r.commentsOf pd.id) s
    have hclinks := links_save_comments pd.id (r.commentsOf pd.id) s
    have hcidx := idx_save_comments pd.id (r.commentsOf pd.id) s
    have hselfrow : pd.id ∈ (insertOrReplacePhoto
        (save_comments_op pd.id (r.commentsOf pd.id) s).1.db.photos
        (rowOf (mergeInfo pd oi) (thumbFetch r pd.id (mergeInfo pd oi).url_t))).map Photo.id := by
      rw [← hrow]
      exact mem_ids_insertOrReplacePhoto_self _ _
    refine ⟨?_, ⟨?_, ?_, ?_⟩, ?_⟩
    · intro p hp
      have hp3 : p ∈ (indexAddS pd.id (commitStandalone (mergeInfo pd oi)
          (thumbFetch r pd.id (mergeInfo pd oi).url_t)
          (save_comments_op pd.id (r.commentsOf pd.id) s).1)).existing_photo_ids := hp
      rw [mem_idx_indexAddS_iff] at hp3
      show p ∈ (insertOrReplacePhoto (save_comments_op pd.id (r.commentsOf pd.id) s).1.db.photos
        (rowOf (mergeInfo pd oi) (thumbFetch r pd.id (mergeInfo pd oi).url_t))).map Photo.id
      rcases hp3 with hp3 | hp3
      · subst hp3
        exact hselfrow
      · have hp4 : p ∈ s.existing_photo_ids := by
          have : (commitStandalone (mergeInfo pd oi) (thumbFetch r pd.id (mergeInfo pd oi).url_t)
            (save_comments_op pd.id (r.commentsOf pd.id) s).1).existing_photo_ids =
            s.existing_photo_ids := hcidx
          rw [this] at hp3
          exact hp3
        apply mem_ids_insertOrReplacePhoto_of_mem
        rw [hcphotos]
        exact hs p hp4
    · intro p hp
      show p ∈ (insertOrReplacePhoto (save_comments_op pd.id (r.commentsOf pd.id) s).1.db.photos
        (rowOf (mergeInfo pd oi) (thumbFetch r pd.id (mergeInfo pd oi).url_t))).map Photo.id
      apply mem_ids_insertOrReplacePhoto_of_mem
      rw [hcphotos]
      exact hp
    · intro pr hpr
      show pr ∈ (save_comments_op pd.id (r.commentsOf pd.id) s).1.db.links.map
        (fun l => (l.photo_id, l.album_id))
      rw [hclinks]
      exact hpr
    · intro p hp
      show p ∈ (indexAddS pd.id (commitStandalone (mergeInfo pd oi)
          (thumbFetch r pd.id (mergeInfo pd oi).url_t)
          (save_comments_op pd.id (r.commentsOf pd.id) s).1)).existing_photo_ids
      rw [mem_idx_indexAddS_iff]
      right
      show p ∈ (save_comments_op pd.id (r.commentsOf pd.id) s).1.existing_photo_ids
      rw [hcidx]
      exact hp
    · exact hselfrow

theorem album_item_props (r : Remote) (now : String) (pd : PhotoData) (aid : String)
    (s : UpdState) (hgi : GoodInfo r) (hs : IdxSub s) :
    IdxSub (download_album_photo r now pd aid s).1 ∧
    StLe s (download_album_photo r now pd aid s).1 ∧
    pd.id ∈ photoIds (download_album_photo r now pd aid s).1.db ∧
    (pd.id, aid) ∈ linkPairs (download_album_photo r now pd aid s).1.db := by
  by_cases hpe : photo_exists s pd.id = true
  · by_cases hia : photo_in_album s pd.id aid = true
    · rw [download_album_photo_skip_eq r now pd aid s hpe hia]
      exact ⟨hs, stle_refl s, hs pd.id ((photo_exists_true_iff s pd.id).mp hpe),
        (photo_in_album_true_iff s pd.id aid).mp hia⟩
    · have hia2 : photo_in_album s pd.id aid = false := by
        revert hia; cases photo_in_album s pd.id aid <;> simp
      rw [download_album_link_final r now pd aid s hpe hia2]
      have hselfrow : pd.id ∈ (insertOrReplacePhoto s.db.photos (rowOf pd none)).map Photo.id :=
        mem_ids_insertOrReplacePhoto_self _ _
      refine ⟨?_, ⟨?_, ?_, ?_⟩, ?_, ?_⟩
      · intro p hp
        show p ∈ (insertOrReplacePhoto s.db.photos (rowOf pd none)).map Photo.id
        apply mem_ids_insertOrReplacePhoto_of_mem
        exact hs p hp
      · intro p hp
        show p ∈ (insertOrReplacePhoto s.db.photos (rowOf pd none)).map Photo.id
        exact mem_ids_insertOrReplacePhoto_of_mem _ _ _ hp
      · intro pr hpr
        show pr ∈ (insertOrIgnoreLink s.db.links pd.id aid now).map (fun l => (l.photo_id, l.album_id))
        exact mem_pairs_insertOrIgnoreLink_of_mem _ _ _ _ _ hpr
      · intro p hp
        exact hp
      · exact hselfrow
      · show (pd.id, aid) ∈ (insertOrIgnoreLink s.db.links pd.id aid now).map (fun l => (l.photo_id, l.album_id))
        exact mem_pairs_insertOrIgnoreLink_self _ _ _ _
  · have hpe2 : photo_exists s pd.id = false := by
      revert hpe; cases photo_exists s pd.id <;> simp
    obtain ⟨oi, hr⟩ := (hgi pd.id).1
    have hid : (mergeInfo pd oi).id = pd.id := mergeInfo_id_of_good r pd oi hgi hr
    rw [download_album_new_final r now pd aid s oi hpe2 hr]
    have hrow : (rowOf (mergeInfo pd oi) (thumbFetch r pd.id (mergeInfo pd oi).url_t)).id = pd.id := by
      simp [rowOf, hid]
    have hcphotos := photos_save_comments pd.id (r.commentsOf pd.id) s
    have hclinks := links_save_comments pd.id (r.commentsOf pd.id) s
    have hcidx := idx_save_comments pd.id (r.commentsOf pd.id) s
    have hselfrow : pd.id ∈ (insertOrReplacePhoto
        (save_comments_op pd.id (r.commentsOf pd.id) s).1.db.photos
        (rowOf (mergeInfo pd oi) (thumbFetch r pd.id (mergeInfo pd oi).url_t))).map Photo.id := by
      rw [← hrow]
      exact mem_ids_insertOrReplacePhoto_self _ _
    refine ⟨?_, ⟨?_, ?_, ?_⟩, ?_, ?_⟩
    · intro p hp
      have hp3 : p ∈ (indexAddS pd.id (save_comments_op pd.id (r.commentsOf pd.id) s).1).existing_photo_ids := hp
      rw [mem_idx_indexAddS_iff] at hp3
      show p ∈ (insertOrReplacePhoto (save_comments_op pd.id (r.commentsOf pd.id) s).1.db.photos
        (rowOf (mergeInfo pd oi) (thumbFetch r pd.id (mergeInfo pd oi).url_t))).map Photo.id
      rcases hp3 with hp3 | hp3
      · subst hp3
        exact hselfrow
      · rw [hcidx] at hp3
        apply mem_ids_insertOrReplacePhoto_of_mem
        rw [hcphotos]
        exact hs p hp3
    · intro p hp
      show p ∈ (insertOrReplacePhoto (save_comments_op pd.id (r.commentsOf pd.id) s).1.db.photos
        (rowOf (mergeInfo pd oi) (thumbFetch r pd.id (mergeInfo pd oi).url_t))).map Photo.id
      apply mem_ids_insertOrReplacePhoto_of_mem
      rw [hcphotos]
      exact hp
    · intro pr hpr
      show pr ∈ (insertOrIgnoreLink (save_comments_op pd.id (r.commentsOf pd.id) s).1.db.links
        (mergeInfo pd oi).id aid now).map (fun l => (l.photo_id, l.album_id))
      apply mem_pairs_insertOrIgnoreLink_of_mem
      rw [hclinks]
      exact hpr
    · intro p hp
      show p ∈ (indexAddS pd.id (save_comments_op pd.id (r.commentsOf pd.id) s).1).existing_photo_ids
      rw [mem_idx_indexAddS_iff]
      right
      rw [hcidx]
      exact hp
    · exact hselfrow
    · show (pd.id, aid) ∈ (insertOrIgnoreLink (save_comments_op pd.id (r.commentsOf pd.id) s).1.db.links
        (mergeInfo pd oi).id aid now).map (fun l => (l.photo_id, l.album_id))
      rw [← hid]
      exact mem_pairs_insertOrIgnoreLink_self _ _ _ _

theorem album_item_ok (r : Remote) (now : String) (pd : PhotoData) (aid : String)
    (s : UpdState) (hgi : GoodInfo r) :
    ∃ b, (download_album_photo r now pd aid s).2.2 = Except.ok b := by
  by_cases hpe : photo_exists s pd.id = true
  · by_cases hia : photo_in_album s pd.id aid = true
    · exact ⟨false, by rw [download_album_photo_skip_eq r now pd aid s hpe hia]⟩
    · have hia2 : photo_in_album s pd.id aid = false := by
        revert hia; cases photo_in_album s pd.id aid <;> simp
      refine ⟨true, ?_⟩
      simp only [download_album_photo, hpe, hia2, Bool.and_false, Bool.true_eq_false,
        Bool.false_eq_true, if_false, reduceIte]
  · have hpe2 : photo_exists s pd.id = false := by
      revert hpe; cases photo_exists s pd.id <;> simp
    obtain ⟨oi, hr⟩ := (hgi pd.id).1
    refine ⟨true, ?_⟩
    simp only [download_album_photo, hpe2, Bool.false_eq_true, Bool.false_and, if_false,
      hr, reduceIte]

theorem ps_loop_props (r : Remote) (hgi : GoodInfo r) (l : List PhotoData) :
    ∀ s : UpdState, IdxSub s →
    IdxSub (processStreamItems r l s).1 ∧ StLe s (processStreamItems r l s).1 ∧
    ∀ pd ∈ l, pd.id ∈ photoIds (processStreamItems r l s).1.db := by
  induction l with
  | nil => intro s hs; exact ⟨hs, stle_refl s, by simp⟩
  | cons pd rest ih =>
      intro s hs
      have hi := ps_item_props r pd s hgi hs
      have ht := ih (download_photostream_photo r pd s).1 hi.1
      have hfe : (processStreamItems r (pd :: rest) s).1 =
          (processStreamItems r rest (download_photostream_photo r pd s).1).1 := by
        simp only [processStreamItems]
      refine ⟨?_, ?_, ?_⟩
      · rw [hfe]; exact ht.1
      · rw [hfe]; exact stle_trans _ _ _ hi.2.1 ht.2.1
      · intro q hq
        rw [hfe]
        rcases List.mem_cons.mp hq with h | h
        · subst h
          exact ht.2.1.1 q.id hi.2.2
        · exact ht.2.2 q h

theorem album_items_loop_props (r : Remote) (now aid : String) (hgi : GoodInfo r)
    (l : List PhotoData) :
    ∀ s : UpdState, IdxSub s →
    IdxSub (processAlbumItems r now aid l s).1 ∧ StLe s (processAlbumItems r now aid l s).1 ∧
    ∀ pd ∈ l, pd.id ∈ photoIds (processAlbumItems r now aid l s).1.db ∧
      (pd.id, aid) ∈ linkPairs (processAlbumItems r now aid l s).1.db := by
  induction l with
  | nil => intro s hs; exact ⟨hs, stle_refl s, by simp⟩
  | cons pd rest ih =>
      intro s hs
      have hi := album_item_props r now pd aid s hgi hs
      have ht := ih (download_album_photo r now pd aid s).1 hi.1
      obtain ⟨b, hok⟩ := album_item_ok r now pd aid s hgi
      have hfe : (processAlbumItems r now aid (pd :: rest) s).1 =
          (processAlbumItems r now aid rest (download_album_photo r now pd aid s).1).1 := by
        simp only [processAlbumItems, hok]
      refine ⟨?_, ?_, ?_⟩
      · rw [hfe]; exact ht.1
      · rw [hfe]; exact stle_trans _ _ _ hi.2.1 ht.2.1
      · intro q hq
        rw [hfe]
        rcases List.mem_cons.mp hq with h | h
        · subst h
          exact ⟨ht.2.1.1 q.id hi.2.2.1, ht.2.1.2.1 (q.id, aid) hi.2.2.2⟩
        · exact ht.2.2 q h

theorem albums_loop_props (r : Remote) (now : String) (hgi : GoodInfo r)
    (l : List AlbumInfo) :
    ∀ s : UpdState, IdxSub s →
    IdxSub (processAlbums r now l s).1 ∧ StLe s (processAlbums r now l s).1 ∧
    ∀ a ∈ l, ∀ pd ∈ get_album_photos r a.id,
      pd.id ∈ photoIds (processAlbums r now l s).1.db ∧
      (pd.id, a.id) ∈ linkPairs (processAlbums r now l s).1.db := by
  induction l with
  | nil => intro s hs; exact ⟨hs, stle_refl s, by simp⟩
  | cons a rest ih =>
      intro s hs
      have hs1 : IdxSub (commitAlbumMeta a.id (albumTitleOf a.title) ""
          (get_album_photos r a.id).length now s) := fun p hp => hs p hp
      have hstle1 : StLe s (commitAlbumMeta a.id (albumTitleOf a.title) ""
          (get_album_photos r a.id).length now s) :=
        ⟨fun p hp => hp, fun pr hpr => hpr, fun p hp => hp⟩
      have hi := album_items_loop_props r now a.id hgi (get_album_photos r a.id) _ hs1
      have hia : IdxSub (update_album_incremental r now a.id (albumTitleOf a.title) s).1 := hi.1
      have ht := ih (update_album_incremental r now a.id (albumTitleOf a.title) s).1 hia
      have hfe : (processAlbums r now (a :: rest) s).1 =
          (processAlbums r now rest (update_album_incremental r now a.id (albumTitleOf a.title) s).1).1 := by
        simp only [processAlbums]
      have hstlei : StLe s (update_album_incremental r now a.id (albumTitleOf a.title) s).1 :=
        stle_trans _ _ _ hstle1 hi.2.1
      refine ⟨?_, ?_, ?_⟩
      · rw [hfe]; exact ht.1
      · rw [hfe]; exact stle_trans _ _ _ hstlei ht.2.1
      · intro x hx pd hpd
        rw [hfe]
        rcases List.mem_cons.mp hx with h | h
        · subst h
          have hcov := hi.2.2 pd hpd
          exact ⟨ht.2.1.1 pd.id hcov.1, ht.2.1.2.1 (pd.id, x.id) hcov.2⟩
        · exact ht.2.2 x h pd hpd

/-- All photostream pages, as gathered by the page loop (independent of the
in-memory index and of `days_back`). -/
def streamListed (r : Remote) : List PhotoData :=
  (getPhotostreamGo r.photostreamPages (r.photostreamPages.length + 2) 1 [] []).1

theorem get_recent_fst_eq (r : Remote) (idx : List String) (d : Nat) :
    (get_recent_photostream_photos r idx d).1 =
      (streamListed r).filter (fun p => decide (¬ p.id ∈ idx)) := by
  simp only [get_recent_photostream_photos, streamListed]
  rw [getPhotostreamGo_fst_log_indep r.photostreamPages (r.photostreamPages.length + 2) 1 []
    (["Checking photostream for photos uploaded in last " ++ toString d ++ " days..."]) []]

/-- After one full run, every photostream-listed photo id is in storage, and
for every album the run could list, every listed photo is stored and linked
to that album. -/
theorem run1_covers (r : Remote) (now : String) (db : DB) (hgi : GoodInfo r) :
    (∀ pd ∈ streamListed r, pd.id ∈ photoIds (runSync r now db).db) ∧
    (∀ albums, get_user_albums r = Except.ok albums →
      ∀ a ∈ albums, ∀ pd ∈ get_album_photos r a.id,
        pd.id ∈ photoIds (runSync r now db).db ∧
        (pd.id, a.id) ∈ linkPairs (runSync r now db).db) := by
  have hs0 : IdxSub (mkRunState db) := fun p hp => hp
  have hps := ps_loop_props r hgi
    (get_recent_photostream_photos r (mkRunState db).existing_photo_ids 90).1 (mkRunState db) hs0
  have hpseq : (update_photostream r (mkRunState db)).1 =
      (processStreamItems r
        (get_recent_photostream_photos r (mkRunState db).existing_photo_ids 90).1 (mkRunState db)).1 := rfl
  have hcovstream : ∀ pd ∈ streamListed r,
      pd.id ∈ photoIds (update_photostream r (mkRunState db)).1.db := by
    intro pd hpd
    rw [hpseq]
    by_cases hmem : pd.id ∈ (mkRunState db).existing_photo_ids
    · exact hps.2.1.1 pd.id (hs0 pd.id hmem)
    · have hfl : pd ∈ (get_recent_photostream_photos r (mkRunState db).existing_photo_ids 90).1 := by
        rw [get_recent_fst_eq]
        exact List.mem_filter.mpr ⟨hpd, by simp [hmem]⟩
      exact hps.2.2 pd hfl
  rcases halb : get_user_albums r with e | albums
  · have hfin : (runSync r now db) = (update_photostream r (mkRunState db)).1 := by
      simp only [runSync, comprehensive_update, update_albums, halb]
    constructor
    · intro pd hpd
      rw [hfin]
      exact hcovstream pd hpd
    · intro albums halb2
      simp at halb2
  · have hfin : (runSync r now db) =
        (processAlbums r now albums (update_photostream r (mkRunState db)).1).1 := by
      simp only [runSync, comprehensive_update, update_albums, halb]
    have hal := albums_loop_props r now hgi albums (update_photostream r (mkRunState db)).1 hps.1
    constructor
    · intro pd hpd
      rw [hfin]
      exact hal.2.1.1 pd.id (hcovstream pd hpd)
    · intro albums2 halb2
      injection halb2 with h2
      subst h2
      intro a ha pd hpd
      rw [hfin]
      exact hal.2.2 a ha pd hpd

/-- Processing an album whose photos are all already present and linked only
bumps the skipped counter. -/
theorem stable_album_items (r : Remote) (now aid : String) (l : List PhotoData) :
    ∀ s : UpdState,
    (∀ pd ∈ l, pd.id ∈ s.existing_photo_ids ∧ (pd.id, aid) ∈ linkPairs s.db) →
    (processAlbumItems r now aid l s).1 =
      { s with skipped_photos_count := s.skipped_photos_count + l.length } := by
  induction l with
  | nil =>
      intro s _
      show s = { s with skipped_photos_count := s.skipped_photos_count + 0 }
      rfl
  | cons pd rest ih =>
      intro s hcond
      have hpe : photo_exists s pd.id = true :=
        (photo_exists_true_iff s pd.id).mpr (hcond pd (by simp)).1
      have hia : photo_in_album s pd.id aid = true :=
        (photo_in_album_true_iff s pd.id aid).mpr (hcond pd (by simp)).2
      have hskip := download_album_photo_skip_eq r now pd aid s hpe hia
      have hfe : (processAlbumItems r now aid (pd :: rest) s).1 =
          (processAlbumItems r now aid rest (bumpSkipped s)).1 := by
        simp only [processAlbumItems, hskip]
      rw [hfe, ih (bumpSkipped s) (fun q hq => (hcond q (by simp [hq])))]
      show ({ s with skipped_photos_count := s.skipped_photos_count + 1 + rest.length } : UpdState) =
        { s with skipped_photos_count := s.skipped_photos_count + (rest.length + 1) }
      have : s.skipped_photos_count + 1 + rest.length = s.skipped_photos_count + (rest.length + 1) := by
        omega
      rw [this]

/-- Sweeping a list of albums all of whose listed photos are already stored
and linked changes neither the photo/link tables, the index, nor the
`new_photos`/`new_associations` counters. -/
theorem stable_albums_loop (r : Remote) (now : String) (l : List AlbumInfo) :
    ∀ s : UpdState, ∀ db1 : DB,
    s.db.photos = db1.photos → s.db.links = db1.links →
    s.existing_photo_ids = photoIds db1 →
    (∀ a ∈ l, ∀ pd ∈ get_album_photos r a.id,
      pd.id ∈ photoIds db1 ∧ (pd.id, a.id) ∈ linkPairs db1) →
    (processAlbums r now l s).1.new_photos_count = s.new_photos_count ∧
    (processAlbums r now l s).1.new_associations_count = s.new_associations_count ∧
    (processAlbums r now l s).1.db.photos = db1.photos ∧
    (processAlbums r now l s).1.db.links = db1.links ∧
    (processAlbums r now l s).1.existing_photo_ids = photoIds db1 := by
  induction l with
  | nil =>
      intro s db1 hph hlk hix _
      exact ⟨rfl, rfl, hph, hlk, hix⟩
  | cons a rest ih =>
      intro s db1 hph hlk hix hcond
      have hlp : linkPairs s.db = linkPairs db1 := by
        unfold linkPairs
        rw [hlk]
      have hone := stable_album_items r now a.id (get_album_photos r a.id)
        (commitAlbumMeta a.id (albumTitleOf a.title) "" (get_album_photos r a.id).length now s)
        (by
          intro pd hpd
          refine ⟨?_, ?_⟩
          · show pd.id ∈ s.existing_photo_ids
            rw [hix]
            exact (hcond a (by simp) pd hpd).1
          · show (pd.id, a.id) ∈ linkPairs s.db
            rw [hlp]
            exact (hcond a (by simp) pd hpd).2)
      have hfe : (processAlbums r now (a :: rest) s).1 =
          (processAlbums r now rest (update_album_incremental r now a.id (albumTitleOf a.title) s).1).1 := by
        simp only [processAlbums]
      have huai : (update_album_incremental r now a.id (albumTitleOf a.title) s).1 =
          { (commitAlbumMeta a.id (albumTitleOf a.title) "" (get_album_photos r a.id).length now s) with
            skipped_photos_count :=
              (commitAlbumMeta a.id (albumTitleOf a.title) "" (get_album_photos r a.id).length now s).skipped_photos_count
              + (get_album_photos r a.id).length } := by
        show (processAlbumItems r now a.id (get_album_photos r a.id)
          (commitAlbumMeta a.id (albumTitleOf a.title) "" (get_album_photos r a.id).length now s)).1 = _
        exact hone
      rw [hfe, huai]
      exact ih _ db1 hph hlk hix (fun x hx pd hpd => hcond x (by simp [hx]) pd hpd)

/-- C3: with an unchanged remote collection whose detail calls succeed and
report consistent ids, a second full sync started on the database produced
by any first full sync reports zero new photos and zero new associations. -/
theorem full_sync_idempotent (r : Remote) (now₁ now₂ : String) (db : DB)
    (hgi : GoodInfo r) :
    (runSync r now₂ (runSync r now₁ db).db).new_photos_count = 0 ∧
    (runSync r now₂ (runSync r now₁ db).db).new_associations_count = 0 := by
  have hcov := run1_covers r now₁ db hgi
  have hflist : (get_recent_photostream_photos r
      (mkRunState (runSync r now₁ db).db).existing_photo_ids 90).1 = [] := by
    rw [get_recent_fst_eq]
    refine List.filter_eq_nil_iff.mpr ?_
    intro pd hpd
    have hmem : pd.id ∈ (mkRunState (runSync r now₁ db).db).existing_photo_ids :=
      hcov.1 pd hpd
    simp [hmem]
  have hpsid : (update_photostream r (mkRunState (runSync r now₁ db).db)).1 =
      mkRunState (runSync r now₁ db).db := by
    show (processStreamItems r (get_recent_photostream_photos r
      (mkRunState (runSync r now₁ db).db).existing_photo_ids 90).1
      (mkRunState (runSync r now₁ db).db)).1 = _
    rw [hflist]
    rfl
  have h1 : runSync r now₂ (runSync r now₁ db).db =
      (update_albums r now₂ (update_photostream r (mkRunState (runSync r now₁ db).db)).1).1 := rfl
  rcases halb : get_user_albums r with e | albums
  · rw [h1, hpsid]
    simp only [update_albums, halb]
    exact ⟨rfl, rfl⟩
  · have hstab := stable_albums_loop r now₂ albums (mkRunState (runSync r now₁ db).db)
      (runSync r now₁ db).db rfl rfl rfl (hcov.2 albums halb)
    rw [h1, hpsid]
    simp only [update_albums, halb]
    exact ⟨hstab.1, hstab.2.1⟩

def c3Pd : PhotoData :=
  { id := "q1", title := none, description := none, tags := none
  , datetaken := none, dateupload := none, views := none, url_t := none, url_o := none }

def c3Remote : Remote :=
  { photostreamPages := [{ ok := true, message := "", items := [c3Pd], pages := 1 }]
  , albumsPages := [{ ok := true, message := "", items := [{ id := "al", title := PyVal.str "A" }], pages := 1 }]
  , albumPhotosPages := fun _ => [{ ok := true, message := "", items := [c3Pd], pages := 1 }]
  , info := fun _ => Except.ok none
  , commentsOf := fun _ => []
  , thumb := fun _ _ => none }

theorem c3Remote_goodInfo : GoodInfo c3Remote :=
  fun _ => ⟨⟨none, rfl⟩, fun i h => by simp [c3Remote] at h⟩

/-- Witness for C3: two consecutive runs against a concrete one-album,
one-photostream-photo remote. -/
theorem full_sync_idempotent_witness :
    (runSync c3Remote "T2" (runSync c3Remote "T1"
      { albums := [], photos := [], comments := [], links := [] }).db).new_photos_count = 0 ∧
    (runSync c3Remote "T2" (runSync c3Remote "T1"
      { albums := [], photos := [], comments := [], links := [] }).db).new_associations_count = 0 :=
  full_sync_idempotent c3Remote "T1" "T2"
    { albums := [], photos := [], comments := [], links := [] } c3Remote_goodInfo
